import Mathlib

/-!
# smsserver: the request pipeline of `main.go`

A shallow embedding of `handler`, `encodeMessage` and `decrypt` from `src/main.go`,
together with models of the Go standard-library functions the handler calls
(`url.ParseQuery`, `strconv.Atoi`, `fmt.Sprintf`, `http.Error`).

Conventions.
* A Go `string` or `[]byte` is a list of bytes (`Bytes`).
* The global `requestCache map[string]int64` is a finite partial map, modelled as a
  function `Bytes → Option Int`; `int` is taken to be 64 bits wide, so that
  `int64 (validInt)` is the identity.
* `time.Now().Unix()` is the parameter `now`; the outcome of `serialPort.Write` is the
  parameter `writeOk`.
* AES-CFB and base64 are parameters (`Crypto`).
* A run-time panic (index out of range) is an explicit outcome, `Reply.panic`.
-/

namespace SmsServer

/-! ## Byte strings -/

/-- A Go `string` or `[]byte`. -/
abbrev Bytes := List UInt8

/-- The bytes of a Go string literal, that is its UTF-8 encoding. -/
def bytes (s : String) : Bytes := s.data.flatMap String.utf8EncodeChar

/-- The byte of an ASCII character literal such as `'&'`. -/
def byte (c : Char) : UInt8 := c.toNat.toUInt8

/-! ## Go standard library -/

/-- Go `strings.Cut (s, sep)` for a one-byte separator: the text before and after the
first `sep`; when `sep` does not occur, all of `s` and the empty string. -/
def cut (sep : UInt8) : Bytes → Bytes × Bytes
  | [] => ([], [])
  | c :: cs => if c = sep then ([], cs) else ((c :: (cut sep cs).1), (cut sep cs).2)

/-- The pieces of `s` between occurrences of `sep`; what repeated `strings.Cut (s, sep)`
yields, one piece after the other. -/
def splitOn (sep : UInt8) : Bytes → List Bytes
  | [] => [[]]
  | c :: cs =>
    if c = sep then [] :: splitOn sep cs
    else
      match splitOn sep cs with
      | p :: ps => (c :: p) :: ps
      | [] => [[c]]

/-- Go `url.ishex`. -/
def ishex (c : UInt8) : Bool :=
  (byte '0' ≤ c ∧ c ≤ byte '9') ∨ (byte 'a' ≤ c ∧ c ≤ byte 'f') ∨ (byte 'A' ≤ c ∧ c ≤ byte 'F')

/-- Go `url.unhex`. -/
def unhex (c : UInt8) : UInt8 :=
  if byte '0' ≤ c ∧ c ≤ byte '9' then c - byte '0'
  else if byte 'a' ≤ c ∧ c ≤ byte 'f' then c - byte 'a' + 10
  else if byte 'A' ≤ c ∧ c ≤ byte 'F' then c - byte 'A' + 10
  else 0

/-- Go `url.QueryUnescape`: `%XY` becomes the byte `0xXY`, `+` becomes a space, and a
`%` that is not followed by two hexadecimal digits is an error (`none`). -/
def QueryUnescape : Bytes → Option Bytes
  | [] => some []
  | c :: rest =>
    if c = byte '%' then
      match rest with
      | h :: l :: rest2 =>
        if ishex h ∧ ishex l then
          (QueryUnescape rest2).map (fun t => (unhex h <<< 4 ||| unhex l) :: t)
        else none
      | _ => none
    else if c = byte '+' then (QueryUnescape rest).map (fun t => byte ' ' :: t)
    else (QueryUnescape rest).map (fun t => c :: t)

/-- The errors `url.ParseQuery` reports. -/
inductive QueryError where
  | semicolon
  | escape
deriving DecidableEq, Repr

/-- Go `url.Values`, a `map[string][]string`. -/
abbrev Values := Bytes → Option (List Bytes)

/-- The empty `url.Values`. -/
def Values.empty : Values := fun _ => none

/-- The statement `m[key] = append (m[key], value)`. -/
def Values.add (m : Values) (key value : Bytes) : Values :=
  fun k => if k = key then some ((m key).getD [] ++ [value]) else m k

/-- One round of the loop of Go `url.parseQuery`, on the piece `part` cut off at `&`. -/
def parseQueryPart (acc : Values × Option QueryError) (part : Bytes) :
    Values × Option QueryError :=
  if byte ';' ∈ part then (acc.1, some QueryError.semicolon)
  else if part = [] then acc
  else
    match QueryUnescape (cut (byte '=') part).1 with
    | none => (acc.1, if acc.2 = none then some QueryError.escape else acc.2)
    | some key =>
      match QueryUnescape (cut (byte '=') part).2 with
      | none => (acc.1, if acc.2 = none then some QueryError.escape else acc.2)
      | some value => (acc.1.add key value, acc.2)

/-- Go `url.ParseQuery`: the map built from the well-formed pieces, and the first error
met (a piece with an error is left out, the later pieces are still parsed). -/
def ParseQuery (query : Bytes) : Values × Option QueryError :=
  (splitOn (byte '&') query).foldl parseQueryPart (Values.empty, none)

/-- The value of a run of decimal digits, `none` when a byte is not a digit. -/
def parseDigits (acc : Nat) : Bytes → Option Nat
  | [] => some acc
  | c :: cs =>
    if byte '0' ≤ c ∧ c ≤ byte '9' then parseDigits (acc * 10 + (c - byte '0').toNat) cs
    else none

/-- Go `strconv.Atoi` with a 64-bit `int`: an optional sign, then at least one decimal
digit and nothing else; a value outside the range of `int` is an error. -/
def Atoi (s : Bytes) : Option Int :=
  let neg : Bool := s.head? = some (byte '-')
  let ds : Bytes := if s.head? = some (byte '-') ∨ s.head? = some (byte '+') then s.tail else s
  if ds = [] then none
  else
    match parseDigits 0 ds with
    | none => none
    | some n =>
      let v : Int := if neg then -(n : Int) else (n : Int)
      if -(2 : Int) ^ 63 ≤ v ∧ v < (2 : Int) ^ 63 then some v else none

/-- Go `fmt.Sprintf`, for a format whose only verb is `%s` and for string operands: each
`%s` is replaced by the next operand, copied byte for byte; `%%` is a percent sign. -/
def Sprintf : Bytes → List Bytes → Bytes
  | [], _ => []
  | c :: rest, args =>
    if c = byte '%' then
      match rest with
      | v :: rest2 =>
        if v = byte 's' then
          match args with
          | a :: more => a ++ Sprintf rest2 more
          | [] => bytes "%!s(MISSING)" ++ Sprintf rest2 []
        else if v = byte '%' then byte '%' :: Sprintf rest2 args
        else byte '%' :: v :: Sprintf rest2 args
      | [] => bytes "%!(NOVERB)"
    else c :: Sprintf rest args

/-- What a handler leaves in its `http.ResponseWriter`: status code and body. -/
structure Response where
  status : Nat
  body : Bytes
deriving DecidableEq, Repr

/-- What the client gets: a response, or nothing when the handler panicked. -/
inductive Reply where
  | response (r : Response)
  | panic
deriving DecidableEq, Repr

/-- Go `http.Error (w, error, code)`: status `code`, body `error` and a newline. -/
def httpError (error : String) (code : Nat) : Response :=
  Response.mk code (bytes error ++ bytes "\n")

/-- Go `http.StatusNotFound`. -/
def StatusNotFound : Nat := 404

/-- Go `w.WriteHeader (code)` with nothing written to the body. -/
def writeHeader (code : Nat) : Response := Response.mk code []

/-! ## `main.go` -/

/-- The library functions `decrypt` calls: `cfbDecrypt key iv body` is the keystream of
`cipher.NewCFBDecrypter` applied to `body`, `base64Decode` is
`base64.StdEncoding.DecodeString`. -/
structure Crypto where
  cfbDecrypt : Bytes → Bytes → Bytes → Bytes
  base64Decode : Bytes → Option Bytes

/-- Go `aes.BlockSize`. -/
def BlockSize : Nat := 16

/-- `decrypt` (main.go 200-217). `aes.NewCipher` fails unless the key has 16, 24 or 32
bytes. -/
def decrypt (lib : Crypto) (key text : Bytes) : Option Bytes :=
  if key.length = 16 ∨ key.length = 24 ∨ key.length = 32 then
    if text.length < BlockSize then none
    else lib.base64Decode (lib.cfbDecrypt key (text.take BlockSize) (text.drop BlockSize))
  else none

/-- `checkSendNumber` (main.go 188-190): the error returned, always `nil`. -/
def checkSendNumber (_sendNumber : Bytes) : Option String := none

/-- `checkSendMsg` (main.go 192-194): the error returned, always `nil`. -/
def checkSendMsg (_sendMsg : Bytes) : Option String := none

/-- `encodeMessage` (main.go 196-198). -/
def encodeMessage (sendNumber sendMsg : Bytes) : Bytes :=
  Sprintf (bytes "::%s::%s::\n") [sendNumber, sendMsg]

/-- The global `requestCache map[string]int64`. -/
abbrev Cache := Bytes → Option Int

/-- The cache `make (map[string]int64)` of `main`. -/
def emptyCache : Cache := fun _ => none

/-- The globals set once by `main`: `key`, whether `serialPort` is non-nil, and the
cipher library. -/
structure Config where
  key : Bytes
  serialPort : Bool
  crypto : Crypto

/-- The mutable world of the handler: `requestCache`, and the frames passed to
`serialPort.Write` so far, oldest first. -/
structure State where
  requestCache : Cache
  serial : List Bytes

/-- The part of an `http.Request` the handler reads: `r.Method` and `r.URL.RawQuery`. -/
structure Request where
  method : Bytes
  rawQuery : Bytes

/-- A rejection (or panic) before the cache is touched: the line logged and the reply. -/
structure Rejection where
  log : List String
  reply : Reply

/-- The outcome of one call of `handler`. -/
structure Result where
  state : State
  log : List String
  reply : Reply

/-- The sweep loop (main.go 126-131): `delete` every entry with `v < now`. -/
def sweep (requestCache : Cache) (now : Int) : Cache :=
  fun k =>
    match requestCache k with
    | some v => if v < now then none else some v
    | none => none

/-- The Replay Guard (main.go 126-141): sweep, look `key` up, and store it when it is
absent. The flag is `false` when the handler takes the replay branch. -/
def checkAndInsert (requestCache : Cache) (key : Bytes) (expiresAt now : Int) :
    Cache × Bool :=
  if ((sweep requestCache now) key).isSome then (sweep requestCache now, false)
  else (Function.update (sweep requestCache now) key (some expiresAt), true)

/-- The start of `handler` (main.go 65-94): method, `data` parameter, decryption. Yields
`plainText`. -/
def handlerDecode (cfg : Config) (r : Request) : Except Rejection Bytes :=
  if r.method ≠ bytes "GET" then
    Except.error (Rejection.mk [] (Reply.response (httpError "404 page not found" StatusNotFound)))
  else
    match (ParseQuery r.rawQuery).1 (bytes "data") with
    | none =>
      Except.error (Rejection.mk ["error parsing url: missing data parameter"]
        (Reply.response (httpError "404 page not found" StatusNotFound)))
    | some [] => Except.error (Rejection.mk [] Reply.panic)
    | some (d :: _) =>
      if d.length < 1 then
        Except.error (Rejection.mk ["error parsing url: missing data parameter"]
          (Reply.response (httpError "404 page not found" StatusNotFound)))
      else if cfg.key.length > 0 then
        match decrypt cfg.crypto cfg.key d with
        | none =>
          Except.error (Rejection.mk ["error decrypting cipthertext: %s"]
            (Reply.response (httpError "404 page not found" StatusNotFound)))
        | some plainText => Except.ok plainText
      else Except.ok d

/-- The next part of `handler` (main.go 96-124): parse `plainText`, read `valid`, compare
it with the clock. Yields `params` and `validInt`. -/
def handlerValid (now : Int) (plainText : Bytes) : Except Rejection (Values × Int) :=
  match (ParseQuery plainText).2 with
  | some _ =>
    Except.error (Rejection.mk ["error parsing plaintext into url parameters: %s"]
      (Reply.response (httpError "404 page not found" StatusNotFound)))
  | none =>
    match (ParseQuery plainText).1 (bytes "valid") with
    | none =>
      Except.error (Rejection.mk ["missing valid parameter"]
        (Reply.response (httpError "404 page not found" StatusNotFound)))
    | some [] =>
      Except.error (Rejection.mk ["missing valid parameter"]
        (Reply.response (httpError "404 page not found" StatusNotFound)))
    | some (v :: _) =>
      match Atoi v with
      | none =>
        Except.error (Rejection.mk ["invalid plaintext: error parsing valid till parameter: %s"]
          (Reply.response (httpError "404 page not found" StatusNotFound)))
      | some validInt =>
        if validInt < now then
          Except.error (Rejection.mk ["invalid plaintext: valid parameter is in the past"]
            (Reply.response (httpError "404 page not found" StatusNotFound)))
        else Except.ok ((ParseQuery plainText).1, validInt)

/-- The end of `handler` (main.go 143-184): read `sendNumber` and `sendMsg`, encode, write
to the serial port when there is one. -/
def handlerRelay (cfg : Config) (writeOk : Bool) (st : State) (params : Values) : Result :=
  match params (bytes "sendNumber") with
  | none =>
    Result.mk st ["missing sendNumber parameter"]
      (Reply.response (httpError "404 page not found" StatusNotFound))
  | some [] => Result.mk st [] Reply.panic
  | some (sendNumber :: _) =>
    match checkSendNumber sendNumber with
    | some _ =>
      Result.mk st ["wrong sendNumber parameter: %s"]
        (Reply.response (httpError "404 page not found" StatusNotFound))
    | none =>
      match params (bytes "sendMsg") with
      | none =>
        Result.mk st ["missing sendMsg parameter"]
          (Reply.response (httpError "404 page not found" StatusNotFound))
      | some [] => Result.mk st [] Reply.panic
      | some (sendMsg :: _) =>
        match checkSendMsg sendMsg with
        | some _ =>
          Result.mk st ["wrong sendMsg parameter: %s"]
            (Reply.response (httpError "404 page not found" StatusNotFound))
        | none =>
          if cfg.serialPort then
            if writeOk then
              Result.mk (State.mk st.requestCache (st.serial ++ [encodeMessage sendNumber sendMsg]))
                ["Sent message to arduino sms: %s"] (Reply.response (writeHeader 200))
            else
              Result.mk (State.mk st.requestCache (st.serial ++ [encodeMessage sendNumber sendMsg]))
                ["error sending data to serial port: %s"]
                (Reply.response (httpError "404 page not found" StatusNotFound))
          else Result.mk st [] (Reply.response (writeHeader 200))

/-- `handler` (main.go 63-186), for the clock reading `now` and the outcome `writeOk` of
`serialPort.Write`. -/
def handler (cfg : Config) (now : Int) (writeOk : Bool) (st : State) (r : Request) : Result :=
  match handlerDecode cfg r with
  | Except.error e => Result.mk st e.log e.reply
  | Except.ok plainText =>
    match handlerValid now plainText with
    | Except.error e => Result.mk st e.log e.reply
    | Except.ok (params, validInt) =>
      if (checkAndInsert st.requestCache plainText validInt now).2 then
        handlerRelay cfg writeOk
          (State.mk (checkAndInsert st.requestCache plainText validInt now).1 st.serial) params
      else
        Result.mk (State.mk (checkAndInsert st.requestCache plainText validInt now).1 st.serial)
          ["invalid plaintext: replay plaintext"]
          (Reply.response (httpError "404 page not found" StatusNotFound))


/-! ## Sequences of requests and of Replay Guard calls -/

/-- One request as the server handles it: the clock reading of the handler, the outcome
its `serialPort.Write` would have, and the request. -/
structure Step where
  now : Int
  writeOk : Bool
  req : Request

/-- The state when `main` starts to serve: an empty cache, nothing written. -/
def initState : State := State.mk emptyCache []

/-- Requests handled one after the other. -/
def run (cfg : Config) (st : State) : List Step → State
  | [] => st
  | s :: rest => run cfg (handler cfg s.now s.writeOk st s.req).state rest

/-- A call of the Replay Guard: the key, the `expiresAt` to store, and the clock. -/
structure GuardCall where
  key : Bytes
  expiresAt : Int
  now : Int

/-- Replay Guard calls made one after the other on the same cache: the final cache. -/
def runCalls (requestCache : Cache) : List GuardCall → Cache
  | [] => requestCache
  | g :: gs => runCalls (checkAndInsert requestCache g.key g.expiresAt g.now).1 gs

/-- Replay Guard calls made one after the other on the same cache: the flags. -/
def callResults (requestCache : Cache) : List GuardCall → List Bool
  | [] => []
  | g :: gs =>
    (checkAndInsert requestCache g.key g.expiresAt g.now).2 ::
      callResults (checkAndInsert requestCache g.key g.expiresAt g.now).1 gs

/-! ## Handlers running at the same time

`net/http` runs every request in a goroutine of its own and `handler` takes no lock, so
the three statements of the Replay Guard of one request can be separated by statements
of another. The model below takes each of the three statements as one atomic step. -/

/-- Where a goroutine stands in the Replay Guard: before the sweep loop (main.go 127),
before the lookup (134), before the store (141), or past it with its flag. -/
inductive Pc where
  | atSweep
  | atLookup
  | atInsert
  | done (ok : Bool)
deriving DecidableEq, Repr

/-- A goroutine inside the Replay Guard. -/
structure Goroutine where
  key : Bytes
  expiresAt : Int
  now : Int
  pc : Pc

/-- The next statement of goroutine `g` on the shared cache. -/
def Goroutine.step (requestCache : Cache) (g : Goroutine) : Cache × Goroutine :=
  match g.pc with
  | Pc.atSweep => (sweep requestCache g.now, Goroutine.mk g.key g.expiresAt g.now Pc.atLookup)
  | Pc.atLookup =>
    if (requestCache g.key).isSome then
      (requestCache, Goroutine.mk g.key g.expiresAt g.now (Pc.done false))
    else (requestCache, Goroutine.mk g.key g.expiresAt g.now Pc.atInsert)
  | Pc.atInsert =>
    (Function.update requestCache g.key (some g.expiresAt),
      Goroutine.mk g.key g.expiresAt g.now (Pc.done true))
  | Pc.done _ => (requestCache, g)

/-- Run the goroutines `gs` in the order `order` says: each number picks the goroutine
that makes its next step. -/
def interleave (requestCache : Cache) (gs : List Goroutine) : List Nat → Cache × List Goroutine
  | [] => (requestCache, gs)
  | i :: rest =>
    match gs.get? i with
    | none => interleave requestCache gs rest
    | some g => interleave (g.step requestCache).1 (gs.set i (g.step requestCache).2) rest

/-! ## Sample inputs -/

/-- A stand-in cipher library, used where no key is configured. -/
def plainCrypto : Crypto := Crypto.mk (fun _ _ body => body) (fun b => some b)

/-- No key, a serial port. -/
def sampleConfig : Config := Config.mk [] true plainCrypto

/-- A `GET /send?data=...` request with the given (escaped) `data` text. -/
def getRequest (rawData : String) : Request := Request.mk (bytes "GET") (bytes "data=" ++ bytes rawData)

/-! ## Reference definitions -/

/-- The Decoder as the specification words it: fail on a key that is not 16, 24 or 32
bytes long, fail on a text shorter than one 16-byte block, otherwise take the first block
as the initialization vector, decrypt the rest in CFB mode and decode the outcome as
standard base64 (which may fail). -/
def decoderReference (lib : Crypto) (key text : Bytes) : Option Bytes :=
  if key.length ∉ [16, 24, 32] then none
  else if text.length < 16 then none
  else
    match lib.base64Decode (lib.cfbDecrypt key (text.take 16) (text.drop 16)) with
    | none => none
    | some payload => some payload

/-! ## The sweep and the Replay Guard -/

theorem sweep_eq_some (c : Cache) (now : Int) (k : Bytes) (v : Int) :
    sweep c now k = some v ↔ c k = some v ∧ now ≤ v := by
  unfold sweep
  cases h : c k with
  | none => simp
  | some w =>
    by_cases hw : w < now
    · simp only [hw, if_true, Option.some.injEq]
      constructor
      · intro h0; cases h0
      · rintro ⟨rfl, h2⟩; omega
    · simp only [hw, if_false, Option.some.injEq]
      constructor
      · rintro rfl; exact ⟨rfl, by omega⟩
      · rintro ⟨rfl, _⟩; rfl

theorem sweep_eq_none (c : Cache) (now : Int) (k : Bytes) :
    sweep c now k = none ↔ ∀ v, c k = some v → v < now := by
  constructor
  · intro h v hv
    by_contra hlt
    have := (sweep_eq_some c now k v).2 ⟨hv, by omega⟩
    rw [h] at this; cases this
  · intro h
    cases hs : sweep c now k with
    | none => rfl
    | some v =>
      have := (sweep_eq_some c now k v).1 hs
      have := h v this.1
      omega

theorem isSome_false_eq_none {α : Type} (o : Option α) (h : ¬ (o.isSome = true)) : o = none := by
  cases o with
  | none => rfl
  | some w => simp at h

theorem checkAndInsert_present (c : Cache) (key : Bytes) (e now : Int)
    (h : (sweep c now key).isSome = true) :
    checkAndInsert c key e now = (sweep c now, false) := by
  unfold checkAndInsert
  rw [if_pos h]

theorem checkAndInsert_absent (c : Cache) (key : Bytes) (e now : Int)
    (h : sweep c now key = none) :
    checkAndInsert c key e now = (Function.update (sweep c now) key (some e), true) := by
  unfold checkAndInsert
  rw [if_neg (by simp [h])]

/-- An entry that has not expired at `now` survives a Replay Guard call made at `now`,
whatever the key of that call. -/
theorem checkAndInsert_keeps (c : Cache) (key k : Bytes) (e v now : Int)
    (hk : c k = some v) (hv : now ≤ v) :
    (checkAndInsert c key e now).1 k = some v := by
  have hs : sweep c now k = some v := (sweep_eq_some c now k v).2 ⟨hk, hv⟩
  by_cases hp : (sweep c now key).isSome = true
  · rw [checkAndInsert_present c key e now hp]; exact hs
  · have hn : sweep c now key = none := isSome_false_eq_none _ hp
    rw [checkAndInsert_absent c key e now hn]
    have hne : k ≠ key := by
      rintro rfl
      rw [hn] at hs; cases hs
    simp [Function.update, hne, hs]

/-- A Replay Guard call with another key adds no entry for `k`. -/
theorem checkAndInsert_other (c : Cache) (key k : Bytes) (e now : Int) (v : Int)
    (hne : key ≠ k) (h : (checkAndInsert c key e now).1 k = some v) : c k = some v := by
  by_cases hp : (sweep c now key).isSome = true
  · rw [checkAndInsert_present c key e now hp] at h
    exact ((sweep_eq_some c now k v).1 h).1
  · have hn : sweep c now key = none := isSome_false_eq_none _ hp
    rw [checkAndInsert_absent c key e now hn] at h
    have hne2 : k ≠ key := fun h0 => hne h0.symm
    simp only [Function.update, hne2, dite_false] at h
    exact ((sweep_eq_some c now k v).1 h).1

/-- The flag of the Replay Guard is `false` exactly when the key survives the sweep. -/
theorem checkAndInsert_flag (c : Cache) (key : Bytes) (e now : Int) :
    (checkAndInsert c key e now).2 = !(sweep c now key).isSome := by
  by_cases hp : (sweep c now key).isSome = true
  · rw [checkAndInsert_present c key e now hp, hp]; rfl
  · have hn : sweep c now key = none := isSome_false_eq_none _ hp
    rw [checkAndInsert_absent c key e now hn, hn]; rfl

/-- Every entry left by a Replay Guard call is an old entry that has not expired, or the
entry just stored. -/
theorem checkAndInsert_entry (c : Cache) (key k : Bytes) (e now v : Int)
    (h : (checkAndInsert c key e now).1 k = some v) :
    (c k = some v ∧ now ≤ v) ∨ (k = key ∧ v = e ∧ (checkAndInsert c key e now).2 = true) := by
  by_cases hp : (sweep c now key).isSome = true
  · rw [checkAndInsert_present c key e now hp] at h
    exact Or.inl ((sweep_eq_some c now k v).1 h)
  · have hn : sweep c now key = none := isSome_false_eq_none _ hp
    rw [checkAndInsert_absent c key e now hn] at h ⊢
    by_cases hk : k = key
    · subst hk
      simp only [Function.update_same, Option.some.injEq] at h
      exact Or.inr ⟨rfl, h.symm, rfl⟩
    · simp only [Function.update, hk, dite_false] at h
      exact Or.inl ((sweep_eq_some c now k v).1 h)

theorem runCalls_keeps (k : Bytes) (v bound : Int) (hv : bound ≤ v) :
    ∀ (calls : List GuardCall) (c : Cache), c k = some v →
      (∀ g ∈ calls, g.now ≤ bound) → runCalls c calls k = some v := by
  intro calls
  induction calls with
  | nil => intro c hc _; exact hc
  | cons g gs ih =>
    intro c hc hb
    have hg : g.now ≤ bound := hb g (List.mem_cons_self _ _)
    exact ih _ (checkAndInsert_keeps c g.key k g.expiresAt v g.now hc (by omega))
      (fun g2 h2 => hb g2 (List.mem_cons_of_mem _ h2))

theorem runCalls_other (k : Bytes) (v : Int) :
    ∀ (calls : List GuardCall) (c : Cache), (∀ g ∈ calls, g.key ≠ k) →
      runCalls c calls k = some v → c k = some v := by
  intro calls
  induction calls with
  | nil => intro c _ h; exact h
  | cons g gs ih =>
    intro c hk h
    have h1 := ih _ (fun g2 h2 => hk g2 (List.mem_cons_of_mem _ h2)) h
    exact checkAndInsert_other c g.key k g.expiresAt g.now v (hk g (List.mem_cons_self _ _)) h1

/-- C3. Replay Guard sequence. On a cache without `key`, a first call succeeds (at any
time `now0`, so also at `now0 ≤ expiresAt`). After it, and after any calls with other
keys, a call with `key` at any time `now1 ≤ expiresAt` that is not before those calls
fails as a replay, and a call with `key` at any time `now2 > expiresAt` succeeds again
and stores its entry, the old one being swept. -/
theorem C3_replay_guard_sequence (c : Cache) (key : Bytes) (expiresAt now0 : Int)
    (habsent : c key = none) :
    (checkAndInsert c key expiresAt now0).2 = true ∧
    ∀ between : List GuardCall, (∀ g ∈ between, g.key ≠ key) →
      (∀ now1 e1 : Int, now1 ≤ expiresAt → (∀ g ∈ between, g.now ≤ now1) →
        (checkAndInsert (runCalls (checkAndInsert c key expiresAt now0).1 between)
          key e1 now1).2 = false) ∧
      (∀ now2 e2 : Int, expiresAt < now2 →
        (checkAndInsert (runCalls (checkAndInsert c key expiresAt now0).1 between)
          key e2 now2).2 = true ∧
        (checkAndInsert (runCalls (checkAndInsert c key expiresAt now0).1 between)
          key e2 now2).1 key = some e2) := by
  have hs0 : sweep c now0 key = none :=
    (sweep_eq_none c now0 key).2 (fun v hv => by rw [habsent] at hv; cases hv)
  have h0 := checkAndInsert_absent c key expiresAt now0 hs0
  have hstored : (checkAndInsert c key expiresAt now0).1 key = some expiresAt := by
    rw [h0]; simp
  refine ⟨by rw [h0], ?_⟩
  intro between hkeys
  constructor
  · intro now1 e1 h1 hb
    have hk := runCalls_keeps key expiresAt now1 h1 between _ hstored hb
    have hs := (sweep_eq_some _ now1 key expiresAt).2 ⟨hk, h1⟩
    rw [checkAndInsert_flag, hs]; rfl
  · intro now2 e2 h2
    have hs : sweep (runCalls (checkAndInsert c key expiresAt now0).1 between) now2 key
        = none := by
      refine (sweep_eq_none _ now2 key).2 (fun v hv => ?_)
      have hv0 := runCalls_other key v between _ hkeys hv
      rw [hstored] at hv0
      cases hv0
      exact h2
    rw [checkAndInsert_absent _ key e2 now2 hs]
    simp

/-- C3 at a concrete input: key `k` valid until 10, first seen at 5, a call with another key
at 6, a replay at 7 and a new acceptance at 11. -/
theorem C3_replay_guard_sequence_witness :
    emptyCache (bytes "k") = none ∧
    (checkAndInsert emptyCache (bytes "k") 10 5).2 = true ∧
    (checkAndInsert (runCalls (checkAndInsert emptyCache (bytes "k") 10 5).1
      [GuardCall.mk (bytes "other") 20 6]) (bytes "k") 10 7).2 = false ∧
    (checkAndInsert (runCalls (checkAndInsert emptyCache (bytes "k") 10 5).1
      [GuardCall.mk (bytes "other") 20 6]) (bytes "k") 30 11).2 = true :=
  ⟨rfl,
    (C3_replay_guard_sequence emptyCache (bytes "k") 10 5 rfl).1,
    ((C3_replay_guard_sequence emptyCache (bytes "k") 10 5 rfl).2
      [GuardCall.mk (bytes "other") 20 6] (by decide)).1 7 10 (by decide) (by decide),
    (((C3_replay_guard_sequence emptyCache (bytes "k") 10 5 rfl).2
      [GuardCall.mk (bytes "other") 20 6] (by decide)).2 11 30 (by decide)).1⟩

/-- C8. The sweep keeps exactly the entries with `expiresAt ≥ now`, each with its stored
value: an entry is in the swept cache if and only if it was in the cache and has not
expired, and a key is absent afterwards if and only if it was absent or its value was
below `now`. -/
theorem C8_sweep_exact (c : Cache) (now : Int) (k : Bytes) :
    (∀ v : Int, sweep c now k = some v ↔ c k = some v ∧ now ≤ v) ∧
    (sweep c now k = none ↔ c k = none ∨ ∃ v, c k = some v ∧ v < now) := by
  refine ⟨fun v => sweep_eq_some c now k v, ?_⟩
  rw [sweep_eq_none]
  constructor
  · intro h
    cases hk : c k with
    | none => exact Or.inl rfl
    | some v => exact Or.inr ⟨v, rfl, h v hk⟩
  · rintro (h | ⟨v, hv, hlt⟩) w hw
    · rw [h] at hw; cases hw
    · rw [hv] at hw; cases hw; exact hlt

/-- C6. Replay rejection never overwrites: when `key` is present after the sweep, the
Replay Guard fails, the cache it leaves is the swept cache, and the value stored for `key`
is the one that was there. -/
theorem C6_replay_never_overwrites (c : Cache) (key : Bytes) (expiresAt now : Int) (v : Int)
    (hpresent : sweep c now key = some v) :
    (checkAndInsert c key expiresAt now).2 = false ∧
    (checkAndInsert c key expiresAt now).1 = sweep c now ∧
    (checkAndInsert c key expiresAt now).1 key = some v ∧ c key = some v := by
  have h := checkAndInsert_present c key expiresAt now (by rw [hpresent]; rfl)
  rw [h]
  exact ⟨rfl, rfl, hpresent, ((sweep_eq_some c now key v).1 hpresent).1⟩

/-- C6 at a concrete input: `k` stored with 10 is asked for again with 99 at time 7. -/
theorem C6_replay_never_overwrites_witness :
    sweep (Function.update emptyCache (bytes "k") (some 10)) 7 (bytes "k") = some 10 ∧
    (checkAndInsert (Function.update emptyCache (bytes "k") (some 10)) (bytes "k") 99 7).2
      = false ∧
    (checkAndInsert (Function.update emptyCache (bytes "k") (some 10)) (bytes "k") 99 7).1
      (bytes "k") = some 10 :=
  ⟨by decide,
    (C6_replay_never_overwrites (Function.update emptyCache (bytes "k") (some 10))
      (bytes "k") 99 7 10 (by decide)).1,
    (C6_replay_never_overwrites (Function.update emptyCache (bytes "k") (some 10))
      (bytes "k") 99 7 10 (by decide)).2.2.1⟩

/-- C10. The relay frame is `"::"`, the destination, `"::"`, the message and `"::\n"`,
byte for byte, and is seven bytes longer than destination and message together. -/
theorem C10_encodeMessage_frame (destination message : Bytes) :
    encodeMessage destination message =
      bytes "::" ++ destination ++ bytes "::" ++ message ++ bytes "::\n" ∧
    (encodeMessage destination message).length = destination.length + message.length + 7 := by
  have hf : bytes "::%s::%s::\n" = [58, 58, 37, 115, 58, 58, 37, 115, 58, 58, 10] := by decide
  have h1 : bytes "::" = [58, 58] := by decide
  have h2 : bytes "::\n" = [58, 58, 10] := by decide
  have hp : byte '%' = 37 := by decide
  have hs : byte 's' = 115 := by decide
  have h : encodeMessage destination message =
      bytes "::" ++ destination ++ bytes "::" ++ message ++ bytes "::\n" := by
    rw [h1, h2]
    simp +decide [encodeMessage, hf, hp, hs, Sprintf]
  refine ⟨h, ?_⟩
  rw [h, h1, h2]
  simp only [List.length_append, List.length_cons, List.length_nil]
  omega

/-! ## The parser never yields an empty value list -/

theorem parseQueryPart_nonempty (acc : Values × Option QueryError) (part : Bytes)
    (h : ∀ k vs, acc.1 k = some vs → vs ≠ []) :
    ∀ k vs, (parseQueryPart acc part).1 k = some vs → vs ≠ [] := by
  intro k vs hk
  unfold parseQueryPart at hk
  by_cases h1 : byte ';' ∈ part
  · rw [if_pos h1] at hk; exact h k vs hk
  · rw [if_neg h1] at hk
    by_cases h2 : part = []
    · rw [if_pos h2] at hk; exact h k vs hk
    · rw [if_neg h2] at hk
      cases hq : QueryUnescape (cut (byte '=') part).1 with
      | none => rw [hq] at hk; exact h k vs hk
      | some key =>
        rw [hq] at hk
        cases hq2 : QueryUnescape (cut (byte '=') part).2 with
        | none => rw [hq2] at hk; exact h k vs hk
        | some value =>
          rw [hq2] at hk
          simp only [Values.add] at hk
          by_cases h3 : k = key
          · rw [if_pos h3] at hk
            cases hk
            simp
          · rw [if_neg h3] at hk
            exact h k vs hk

theorem foldl_parseQueryPart_nonempty (parts : List Bytes) :
    ∀ acc : Values × Option QueryError, (∀ k vs, acc.1 k = some vs → vs ≠ []) →
      ∀ k vs, (parts.foldl parseQueryPart acc).1 k = some vs → vs ≠ [] := by
  induction parts with
  | nil => intro acc h; exact h
  | cons p ps ih =>
    intro acc h
    exact ih (parseQueryPart acc p) (parseQueryPart_nonempty acc p h)

/-- Every key of a parsed query has at least one value, so `params[k][0]` never panics. -/
theorem ParseQuery_nonempty (query k : Bytes) : (ParseQuery query).1 k ≠ some [] := by
  intro h
  exact foldl_parseQueryPart_nonempty _ (Values.empty, none)
    (fun k vs hk => by simp [Values.empty] at hk) k [] h rfl

/-! ## The stages of `handler` -/

theorem handlerDecode_error (cfg : Config) (r : Request) (e : Rejection)
    (h : handlerDecode cfg r = Except.error e) :
    e.reply = Reply.response (httpError "404 page not found" StatusNotFound) := by
  unfold handlerDecode at h
  by_cases h1 : r.method ≠ bytes "GET"
  · rw [if_pos h1] at h; cases h; rfl
  · rw [if_neg h1] at h
    cases hd : (ParseQuery r.rawQuery).1 (bytes "data") with
    | none => rw [hd] at h; cases h; rfl
    | some ds =>
      cases ds with
      | nil => exact absurd hd (ParseQuery_nonempty _ _)
      | cons d rest =>
        rw [hd] at h
        by_cases h2 : d.length < 1
        · simp only [h2, if_true] at h; cases h; rfl
        · simp only [h2, if_false] at h
          by_cases h3 : cfg.key.length > 0
          · simp only [h3, if_true] at h
            cases hx : decrypt cfg.crypto cfg.key d with
            | none => rw [hx] at h; cases h; rfl
            | some t => rw [hx] at h; cases h
          · simp only [h3, if_false] at h; cases h

theorem handlerValid_error (now : Int) (p : Bytes) (e : Rejection)
    (h : handlerValid now p = Except.error e) :
    e.reply = Reply.response (httpError "404 page not found" StatusNotFound) := by
  unfold handlerValid at h
  cases herr : (ParseQuery p).2 with
  | some q => simp only [herr] at h; cases h; rfl
  | none =>
    simp only [herr] at h
    cases hv : (ParseQuery p).1 (bytes "valid") with
    | none => simp only [hv] at h; cases h; rfl
    | some vs =>
      cases vs with
      | nil => simp only [hv] at h; cases h; rfl
      | cons v rest =>
        simp only [hv] at h
        cases ha : Atoi v with
        | none => simp only [ha] at h; cases h; rfl
        | some n =>
          simp only [ha] at h
          by_cases hlt : n < now
          · simp only [hlt, if_true] at h; cases h; rfl
          · simp only [hlt, if_false] at h; cases h

/-- What `handlerValid` hands on: the parsed payload, and the integer in its first
`valid` value, which is not below the clock. -/
theorem handlerValid_ok (now : Int) (p : Bytes) (params : Values) (e : Int)
    (h : handlerValid now p = Except.ok (params, e)) :
    params = (ParseQuery p).1 ∧ (ParseQuery p).2 = none ∧
    (∃ v vs, (ParseQuery p).1 (bytes "valid") = some (v :: vs) ∧ Atoi v = some e) ∧
    now ≤ e := by
  unfold handlerValid at h
  cases herr : (ParseQuery p).2 with
  | some q => simp only [herr] at h; cases h
  | none =>
    simp only [herr] at h
    cases hv : (ParseQuery p).1 (bytes "valid") with
    | none => simp only [hv] at h; cases h
    | some vs =>
      cases vs with
      | nil => simp only [hv] at h; cases h
      | cons v rest =>
        simp only [hv] at h
        cases ha : Atoi v with
        | none => simp only [ha] at h; cases h
        | some n =>
          simp only [ha] at h
          by_cases hlt : n < now
          · simp only [hlt, if_true] at h; cases h
          · simp only [hlt, if_false] at h
            cases h
            exact ⟨rfl, rfl, ⟨v, rest, rfl, ha⟩, by omega⟩

/-- The converse: a payload that parses and has an integer `valid` passes or is rejected
as expired according to the clock alone. -/
theorem handlerValid_of_valid (now : Int) (p v : Bytes) (vs : List Bytes) (e : Int)
    (herr : (ParseQuery p).2 = none)
    (hv : (ParseQuery p).1 (bytes "valid") = some (v :: vs)) (he : Atoi v = some e) :
    handlerValid now p =
      if e < now then
        Except.error (Rejection.mk ["invalid plaintext: valid parameter is in the past"]
          (Reply.response (httpError "404 page not found" StatusNotFound)))
      else Except.ok ((ParseQuery p).1, e) := by
  unfold handlerValid
  simp only [herr, hv, he]

/-- The five ways the relay stage can end. -/
theorem handlerRelay_cases (cfg : Config) (writeOk : Bool) (st : State) (params : Values) :
    (params (bytes "sendNumber") = none ∧
      handlerRelay cfg writeOk st params = Result.mk st ["missing sendNumber parameter"]
        (Reply.response (httpError "404 page not found" StatusNotFound))) ∨
    (params (bytes "sendNumber") = some [] ∧
      handlerRelay cfg writeOk st params = Result.mk st [] Reply.panic) ∨
    (∃ n ns, params (bytes "sendNumber") = some (n :: ns) ∧
      params (bytes "sendMsg") = none ∧
      handlerRelay cfg writeOk st params = Result.mk st ["missing sendMsg parameter"]
        (Reply.response (httpError "404 page not found" StatusNotFound))) ∨
    (∃ n ns, params (bytes "sendNumber") = some (n :: ns) ∧
      params (bytes "sendMsg") = some [] ∧
      handlerRelay cfg writeOk st params = Result.mk st [] Reply.panic) ∨
    (∃ n ns m ms, params (bytes "sendNumber") = some (n :: ns) ∧
      params (bytes "sendMsg") = some (m :: ms) ∧
      handlerRelay cfg writeOk st params =
        if cfg.serialPort then
          if writeOk then
            Result.mk (State.mk st.requestCache (st.serial ++ [encodeMessage n m]))
              ["Sent message to arduino sms: %s"] (Reply.response (writeHeader 200))
          else
            Result.mk (State.mk st.requestCache (st.serial ++ [encodeMessage n m]))
              ["error sending data to serial port: %s"]
              (Reply.response (httpError "404 page not found" StatusNotFound))
        else Result.mk st [] (Reply.response (writeHeader 200))) := by
  rcases hn : params (bytes "sendNumber") with _ | ⟨_ | ⟨n, ns⟩⟩
  · left
    exact ⟨rfl, by simp only [handlerRelay, hn]⟩
  · right; left
    exact ⟨rfl, by simp only [handlerRelay, hn]⟩
  · right; right
    rcases hm : params (bytes "sendMsg") with _ | ⟨_ | ⟨m, ms⟩⟩
    · left
      exact ⟨n, ns, rfl, rfl, by simp only [handlerRelay, hn, hm, checkSendNumber]⟩
    · right; left
      exact ⟨n, ns, rfl, rfl, by simp only [handlerRelay, hn, hm, checkSendNumber]⟩
    · right; right
      exact ⟨n, ns, m, ms, rfl, rfl,
        by simp only [handlerRelay, hn, hm, checkSendNumber, checkSendMsg]⟩

/-- The relay stage on a parsed payload answers 200 or 404. -/
theorem handlerRelay_reply (cfg : Config) (writeOk : Bool) (st : State) (p : Bytes) :
    (handlerRelay cfg writeOk st (ParseQuery p).1).reply = Reply.response (writeHeader 200) ∨
    (handlerRelay cfg writeOk st (ParseQuery p).1).reply =
      Reply.response (httpError "404 page not found" StatusNotFound) := by
  rcases handlerRelay_cases cfg writeOk st (ParseQuery p).1 with
    ⟨_, h⟩ | ⟨hn, _⟩ | ⟨n, ns, _, _, h⟩ | ⟨n, ns, _, hm, _⟩ | ⟨n, ns, m, ms, _, _, h⟩
  · rw [h]; exact Or.inr rfl
  · exact absurd hn (ParseQuery_nonempty _ _)
  · rw [h]; exact Or.inr rfl
  · exact absurd hm (ParseQuery_nonempty _ _)
  · rw [h]
    cases cfg.serialPort <;> cases writeOk <;> simp

/-- The relay stage leaves the cache alone. -/
theorem handlerRelay_cache (cfg : Config) (writeOk : Bool) (st : State) (params : Values) :
    (handlerRelay cfg writeOk st params).state.requestCache = st.requestCache := by
  rcases handlerRelay_cases cfg writeOk st params with
    ⟨_, h⟩ | ⟨_, h⟩ | ⟨n, ns, _, _, h⟩ | ⟨n, ns, _, _, h⟩ | ⟨n, ns, m, ms, _, _, h⟩
  · rw [h]
  · rw [h]
  · rw [h]
  · rw [h]
  · rw [h]
    cases cfg.serialPort <;> cases writeOk <;> rfl

/-- With `sendNumber` or `sendMsg` missing the relay stage changes nothing. -/
theorem handlerRelay_of_missing (cfg : Config) (writeOk : Bool) (st : State) (p : Bytes)
    (h : (ParseQuery p).1 (bytes "sendNumber") = none ∨
      (ParseQuery p).1 (bytes "sendMsg") = none) :
    (handlerRelay cfg writeOk st (ParseQuery p).1).state = st ∧
    (handlerRelay cfg writeOk st (ParseQuery p).1).reply =
      Reply.response (httpError "404 page not found" StatusNotFound) := by
  rcases handlerRelay_cases cfg writeOk st (ParseQuery p).1 with
    ⟨_, h1⟩ | ⟨hn, _⟩ | ⟨n, ns, _, _, h1⟩ | ⟨n, ns, _, hm, _⟩ | ⟨n, ns, m, ms, hn, hm, _⟩
  · rw [h1]; exact ⟨rfl, rfl⟩
  · exact absurd hn (ParseQuery_nonempty _ _)
  · rw [h1]; exact ⟨rfl, rfl⟩
  · exact absurd hm (ParseQuery_nonempty _ _)
  · rcases h with h | h
    · rw [hn] at h; cases h
    · rw [hm] at h; cases h

theorem handlerRelay_log_ne (cfg : Config) (writeOk : Bool) (st : State) (params : Values) :
    (handlerRelay cfg writeOk st params).log ≠
      ["invalid plaintext: valid parameter is in the past"] := by
  rcases handlerRelay_cases cfg writeOk st params with
    ⟨_, h⟩ | ⟨_, h⟩ | ⟨n, ns, _, _, h⟩ | ⟨n, ns, _, _, h⟩ | ⟨n, ns, m, ms, _, _, h⟩
  · rw [h]; simp
  · rw [h]; simp
  · rw [h]; simp
  · rw [h]; simp
  · rw [h]
    cases cfg.serialPort <;> cases writeOk <;> simp

theorem handler_of_decode_error (cfg : Config) (now : Int) (writeOk : Bool) (st : State)
    (r : Request) (e : Rejection) (h : handlerDecode cfg r = Except.error e) :
    handler cfg now writeOk st r = Result.mk st e.log e.reply := by
  simp only [handler, h]

theorem handler_of_valid_error (cfg : Config) (now : Int) (writeOk : Bool) (st : State)
    (r : Request) (p : Bytes) (e : Rejection) (h : handlerDecode cfg r = Except.ok p)
    (h2 : handlerValid now p = Except.error e) :
    handler cfg now writeOk st r = Result.mk st e.log e.reply := by
  simp only [handler, h, h2]

theorem handler_of_guard (cfg : Config) (now : Int) (writeOk : Bool) (st : State)
    (r : Request) (p : Bytes) (params : Values) (e : Int)
    (h : handlerDecode cfg r = Except.ok p)
    (h2 : handlerValid now p = Except.ok (params, e)) :
    handler cfg now writeOk st r =
      if (checkAndInsert st.requestCache p e now).2 then
        handlerRelay cfg writeOk
          (State.mk (checkAndInsert st.requestCache p e now).1 st.serial) params
      else
        Result.mk (State.mk (checkAndInsert st.requestCache p e now).1 st.serial)
          ["invalid plaintext: replay plaintext"]
          (Reply.response (httpError "404 page not found" StatusNotFound)) := by
  simp only [handler, h, h2]

/-- Whatever the request, the cache after `handler` is the old cache, or the cache the
Replay Guard leaves for the decoded payload and its `valid`. -/
theorem handler_cache (cfg : Config) (now : Int) (writeOk : Bool) (st : State) (r : Request) :
    (handler cfg now writeOk st r).state.requestCache = st.requestCache ∨
    ∃ p params e, handlerDecode cfg r = Except.ok p ∧
      handlerValid now p = Except.ok (params, e) ∧
      (handler cfg now writeOk st r).state.requestCache =
        (checkAndInsert st.requestCache p e now).1 := by
  cases hd : handlerDecode cfg r with
  | error e => rw [handler_of_decode_error cfg now writeOk st r e hd]; exact Or.inl rfl
  | ok p =>
    cases hv : handlerValid now p with
    | error e => rw [handler_of_valid_error cfg now writeOk st r p e hd hv]; exact Or.inl rfl
    | ok pe =>
      obtain ⟨params, e⟩ := pe
      refine Or.inr ⟨p, params, e, rfl, hv, ?_⟩
      rw [handler_of_guard cfg now writeOk st r p params e hd hv]
      by_cases hf : (checkAndInsert st.requestCache p e now).2 = true
      · rw [if_pos hf, handlerRelay_cache]
      · rw [if_neg hf]

/-- C9. Uniform rejection: whatever the request, the key, the cache, the clock and the serial
port do, `handler` answers with the empty 200 or with the one 404 of `http.Error`, the
same at every rejecting stage; in particular it never panics. -/
theorem C9_uniform_rejection (cfg : Config) (now : Int) (writeOk : Bool) (st : State)
    (r : Request) :
    (handler cfg now writeOk st r).reply = Reply.response (writeHeader 200) ∨
    (handler cfg now writeOk st r).reply =
      Reply.response (httpError "404 page not found" StatusNotFound) := by
  cases hd : handlerDecode cfg r with
  | error e =>
    rw [handler_of_decode_error cfg now writeOk st r e hd]
    exact Or.inr (handlerDecode_error cfg r e hd)
  | ok p =>
    cases hv : handlerValid now p with
    | error e =>
      rw [handler_of_valid_error cfg now writeOk st r p e hd hv]
      exact Or.inr (handlerValid_error now p e hv)
    | ok pe =>
      obtain ⟨params, e⟩ := pe
      rw [handler_of_guard cfg now writeOk st r p params e hd hv]
      by_cases hf : (checkAndInsert st.requestCache p e now).2 = true
      · rw [if_pos hf, (handlerValid_ok now p params e hv).1]
        exact handlerRelay_reply cfg writeOk _ p
      · rw [if_neg hf]
        exact Or.inr rfl

/-- C4. Freshness Gate: for a payload whose first `valid` value is the integer `expiresAt`,
`handler` gets past the freshness check (it does not reject the request as expired) if and
only if `expiresAt ≥ now`; a rejected request leaves the state as it was. In particular
`expiresAt = now` passes and `expiresAt = now - 1` is rejected. -/
theorem C4_freshness_gate (cfg : Config) (now : Int) (writeOk : Bool) (st : State)
    (r : Request) (p v : Bytes) (vs : List Bytes) (expiresAt : Int)
    (hdec : handlerDecode cfg r = Except.ok p)
    (hparse : (ParseQuery p).2 = none)
    (hvalid : (ParseQuery p).1 (bytes "valid") = some (v :: vs))
    (hint : Atoi v = some expiresAt) :
    ((handler cfg now writeOk st r).log ≠
        ["invalid plaintext: valid parameter is in the past"] ↔ expiresAt ≥ now) ∧
    (handlerValid now p = Except.ok ((ParseQuery p).1, expiresAt) ↔ expiresAt ≥ now) ∧
    (expiresAt < now → handler cfg now writeOk st r =
      Result.mk st ["invalid plaintext: valid parameter is in the past"]
        (Reply.response (httpError "404 page not found" StatusNotFound))) ∧
    (expiresAt = now → (handler cfg now writeOk st r).log ≠
        ["invalid plaintext: valid parameter is in the past"]) ∧
    (expiresAt = now - 1 → (handler cfg now writeOk st r).log =
        ["invalid plaintext: valid parameter is in the past"]) := by
  have hv := handlerValid_of_valid now p v vs expiresAt hparse hvalid hint
  have hrej : expiresAt < now → handler cfg now writeOk st r =
      Result.mk st ["invalid plaintext: valid parameter is in the past"]
        (Reply.response (httpError "404 page not found" StatusNotFound)) := by
    intro hlt
    rw [if_pos hlt] at hv
    rw [handler_of_valid_error cfg now writeOk st r p _ hdec hv]
  have hpass : expiresAt ≥ now → (handler cfg now writeOk st r).log ≠
      ["invalid plaintext: valid parameter is in the past"] := by
    intro hge
    rw [if_neg (by omega)] at hv
    rw [handler_of_guard cfg now writeOk st r p _ expiresAt hdec hv]
    by_cases hf : (checkAndInsert st.requestCache p expiresAt now).2 = true
    · rw [if_pos hf]; exact handlerRelay_log_ne _ _ _ _
    · rw [if_neg hf]; simp
  refine ⟨⟨fun h => ?_, hpass⟩, ⟨fun h => ?_, fun h => ?_⟩, hrej, fun h => hpass (by omega),
    fun h => by rw [hrej (by omega)]⟩
  · by_contra hlt
    exact h (by rw [hrej (by omega)])
  · by_contra hlt
    rw [hv, if_pos (by omega)] at h
    cases h
  · rw [hv, if_neg (by omega)]

/-- C4 at the boundary: `valid=5` at clock 5 passes, at clock 6 it is rejected. -/
theorem C4_freshness_gate_witness :
    handlerDecode sampleConfig (getRequest "valid%3D5") = Except.ok (bytes "valid=5") ∧
    (ParseQuery (bytes "valid=5")).2 = none ∧
    (ParseQuery (bytes "valid=5")).1 (bytes "valid") = some [bytes "5"] ∧
    Atoi (bytes "5") = some 5 ∧
    (handler sampleConfig 5 true initState (getRequest "valid%3D5")).log ≠
      ["invalid plaintext: valid parameter is in the past"] ∧
    (handler sampleConfig 6 true initState (getRequest "valid%3D5")).log =
      ["invalid plaintext: valid parameter is in the past"] :=
  ⟨rfl, by decide, by decide, by decide,
    (C4_freshness_gate sampleConfig 5 true initState (getRequest "valid%3D5") (bytes "valid=5")
      (bytes "5") [] 5 rfl (by decide) (by decide) (by decide)).2.2.2.1 rfl,
    (C4_freshness_gate sampleConfig 6 true initState (getRequest "valid%3D5") (bytes "valid=5")
      (bytes "5") [] 5 rfl (by decide) (by decide) (by decide)).2.2.2.2 (by decide)⟩

/-- C7, as stated, fails: a request with `valid=5` handled at clock 5 passes the freshness
check and is stored, so the cache holds an entry whose `expiresAt` is not above `now`. -/
theorem C7_strict_invariant_counterexample :
    ¬ (∀ (k : Bytes) (v : Int),
      (handler sampleConfig 5 true initState
        (getRequest "valid%3D5%26sendNumber%3D555%26sendMsg%3Dhello")).state.requestCache k
          = some v → v > 5) := by
  intro h
  have h5 := h (bytes "valid=5&sendNumber=555&sendMsg=hello") 5 (by decide)
  omega

/-- C7, amended. After every call of `handler` that reaches the Replay Guard at clock
`now`, every key in `requestCache` has a stored `expiresAt ≥ now`. -/
theorem C7_cache_invariant (cfg : Config) (now : Int) (writeOk : Bool) (st : State)
    (r : Request) (p : Bytes) (params : Values) (expiresAt : Int)
    (hdec : handlerDecode cfg r = Except.ok p)
    (hvalid : handlerValid now p = Except.ok (params, expiresAt))
    (k : Bytes) (v : Int)
    (hk : (handler cfg now writeOk st r).state.requestCache k = some v) : v ≥ now := by
  have hc : (handler cfg now writeOk st r).state.requestCache =
      (checkAndInsert st.requestCache p expiresAt now).1 := by
    rw [handler_of_guard cfg now writeOk st r p params expiresAt hdec hvalid]
    by_cases hf : (checkAndInsert st.requestCache p expiresAt now).2 = true
    · rw [if_pos hf, handlerRelay_cache]
    · rw [if_neg hf]
  rw [hc] at hk
  rcases checkAndInsert_entry st.requestCache p k expiresAt now v hk with ⟨_, h⟩ | ⟨_, h, _⟩
  · exact h
  · have := (handlerValid_ok now p params expiresAt hvalid).2.2.2
    omega

/-- C7 (amended) at a concrete input: the request of the counterexample, whose entry has
`expiresAt = now`. -/
theorem C7_cache_invariant_witness :
    handlerDecode sampleConfig (getRequest "valid%3D5%26sendNumber%3D555%26sendMsg%3Dhello")
      = Except.ok (bytes "valid=5&sendNumber=555&sendMsg=hello") ∧
    (handler sampleConfig 5 true initState
      (getRequest "valid%3D5%26sendNumber%3D555%26sendMsg%3Dhello")).state.requestCache
        (bytes "valid=5&sendNumber=555&sendMsg=hello") = some 5 ∧
    (5 : Int) ≥ 5 :=
  ⟨rfl, by decide,
    C7_cache_invariant sampleConfig 5 true initState
      (getRequest "valid%3D5%26sendNumber%3D555%26sendMsg%3Dhello")
      (bytes "valid=5&sendNumber=555&sendMsg=hello")
      (ParseQuery (bytes "valid=5&sendNumber=555&sendMsg=hello")).1 5 rfl rfl
      (bytes "valid=5&sendNumber=555&sendMsg=hello") 5 (by decide)⟩

/-- C2, as stated, fails: the payload `valid=10&sendMsg=hello` has no `sendNumber`, and the
request is rejected, yet it is in `requestCache` afterwards. -/
theorem C2_missing_field_counterexample :
    handlerDecode sampleConfig (getRequest "valid%3D10%26sendMsg%3Dhello")
      = Except.ok (bytes "valid=10&sendMsg=hello") ∧
    (ParseQuery (bytes "valid=10&sendMsg=hello")).1 (bytes "sendNumber") = none ∧
    initState.requestCache (bytes "valid=10&sendMsg=hello") = none ∧
    (handler sampleConfig 5 true initState
      (getRequest "valid%3D10%26sendMsg%3Dhello")).log = ["missing sendNumber parameter"] ∧
    (handler sampleConfig 5 true initState
      (getRequest "valid%3D10%26sendMsg%3Dhello")).state.requestCache
        (bytes "valid=10&sendMsg=hello") = some 10 :=
  ⟨rfl, by decide, by decide, by decide, by decide⟩

/-- C2, amended. A request whose decoded payload lacks `valid`, `sendNumber` or `sendMsg` is
answered with the 404 and nothing is written to the serial port. When `valid` is the
missing key the state is unchanged. When the payload passes the `valid` and freshness
checks, the Replay Guard has run before the missing field is noticed: the cache is the one
the guard leaves (swept, and holding the payload). -/
theorem C2_missing_field (cfg : Config) (now : Int) (writeOk : Bool) (st : State)
    (r : Request) (p : Bytes)
    (hdec : handlerDecode cfg r = Except.ok p)
    (hmissing : (ParseQuery p).1 (bytes "valid") = none ∨
      (ParseQuery p).1 (bytes "sendNumber") = none ∨
      (ParseQuery p).1 (bytes "sendMsg") = none) :
    (handler cfg now writeOk st r).reply =
      Reply.response (httpError "404 page not found" StatusNotFound) ∧
    (handler cfg now writeOk st r).state.serial = st.serial ∧
    ((ParseQuery p).1 (bytes "valid") = none → (handler cfg now writeOk st r).state = st) ∧
    (∀ params expiresAt, handlerValid now p = Except.ok (params, expiresAt) →
      (handler cfg now writeOk st r).state.requestCache =
        (checkAndInsert st.requestCache p expiresAt now).1 ∧
      ∃ v, (handler cfg now writeOk st r).state.requestCache p = some v) := by
  cases hv : handlerValid now p with
  | error e =>
    rw [handler_of_valid_error cfg now writeOk st r p e hdec hv]
    exact ⟨handlerValid_error now p e hv, rfl, fun _ => rfl, fun _ _ h => by cases h⟩
  | ok pe =>
    obtain ⟨params, e⟩ := pe
    obtain ⟨hparams, _, ⟨v, vs, hval, _⟩, hfresh⟩ := handlerValid_ok now p params e hv
    have hmiss2 : (ParseQuery p).1 (bytes "sendNumber") = none ∨
        (ParseQuery p).1 (bytes "sendMsg") = none := by
      rcases hmissing with h | h
      · rw [hval] at h; cases h
      · exact h
    have hstored : ∃ w, (checkAndInsert st.requestCache p e now).1 p = some w := by
      by_cases hpres : (sweep st.requestCache now p).isSome = true
      · rw [checkAndInsert_present _ _ _ _ hpres]
        exact Option.isSome_iff_exists.1 hpres
      · rw [checkAndInsert_absent _ _ _ _ (isSome_false_eq_none _ hpres)]
        exact ⟨e, by simp⟩
    rw [handler_of_guard cfg now writeOk st r p params e hdec hv]
    by_cases hf : (checkAndInsert st.requestCache p e now).2 = true
    · rw [if_pos hf, hparams]
      obtain ⟨hst, hrep⟩ := handlerRelay_of_missing cfg writeOk
        (State.mk (checkAndInsert st.requestCache p e now).1 st.serial) p hmiss2
      rw [hst]
      refine ⟨hrep, rfl, fun h => ?_, fun params2 e2 h2 => ?_⟩
      · rw [hval] at h; cases h
      · cases h2
        exact ⟨rfl, hstored⟩
    · rw [if_neg hf]
      refine ⟨rfl, rfl, fun h => ?_, fun params2 e2 h2 => ?_⟩
      · rw [hval] at h; cases h
      · cases h2
        exact ⟨rfl, hstored⟩

/-- C2 (amended) at a concrete input: a payload without `valid`, on the empty cache. -/
theorem C2_missing_field_witness :
    handlerDecode sampleConfig (getRequest "sendNumber%3D555%26sendMsg%3Dhello")
      = Except.ok (bytes "sendNumber=555&sendMsg=hello") ∧
    (ParseQuery (bytes "sendNumber=555&sendMsg=hello")).1 (bytes "valid") = none ∧
    (handler sampleConfig 5 true initState
      (getRequest "sendNumber%3D555%26sendMsg%3Dhello")).reply =
        Reply.response (httpError "404 page not found" StatusNotFound) ∧
    (handler sampleConfig 5 true initState
      (getRequest "sendNumber%3D555%26sendMsg%3Dhello")).state.serial = [] :=
  ⟨rfl, by decide,
    (C2_missing_field sampleConfig 5 true initState
      (getRequest "sendNumber%3D555%26sendMsg%3Dhello") (bytes "sendNumber=555&sendMsg=hello")
      rfl (Or.inl (by decide))).1,
    (C2_missing_field sampleConfig 5 true initState
      (getRequest "sendNumber%3D555%26sendMsg%3Dhello") (bytes "sendNumber=555&sendMsg=hello")
      rfl (Or.inl (by decide))).2.1⟩

/-! ## Replay Guard calls that overlap, and calls that do not -/

/-- A goroutine that makes its three steps with no other step in between does what
`checkAndInsert` does. -/
theorem interleave_alone (c : Cache) (key : Bytes) (expiresAt now : Int) :
    interleave c [Goroutine.mk key expiresAt now Pc.atSweep] [0, 0, 0] =
      ((checkAndInsert c key expiresAt now).1,
        [Goroutine.mk key expiresAt now (Pc.done (checkAndInsert c key expiresAt now).2)]) := by
  by_cases hp : (sweep c now key).isSome = true
  · rw [checkAndInsert_present c key expiresAt now hp]
    simp [interleave, Goroutine.step, hp]
  · rw [checkAndInsert_absent c key expiresAt now (isSome_false_eq_none _ hp)]
    simp [interleave, Goroutine.step, hp]

/-- C5, as stated, fails for `N = 2`: two handlers with the same key, valid until 10 and
running at clock 5 on the empty cache, both succeed when each has made its lookup before the
other stores. -/
theorem C5_concurrent_counterexample :
    ((interleave emptyCache
      [Goroutine.mk (bytes "k") 10 5 Pc.atSweep, Goroutine.mk (bytes "k") 10 5 Pc.atSweep]
      [0, 0, 1, 1, 0, 1]).2.map Goroutine.pc) = [Pc.done true, Pc.done true] := by
  decide

theorem callResults_replays (key : Bytes) (expiresAt : Int) :
    ∀ (nows : List Int) (c : Cache), c key = some expiresAt → (∀ t ∈ nows, t ≤ expiresAt) →
      callResults c (nows.map (fun t => GuardCall.mk key expiresAt t)) =
        List.replicate nows.length false := by
  intro nows
  induction nows with
  | nil => intro c _ _; rfl
  | cons t ts ih =>
    intro c hc hb
    have ht : t ≤ expiresAt := hb t (List.mem_cons_self _ _)
    have hs : sweep c t key = some expiresAt := (sweep_eq_some c t key expiresAt).2 ⟨hc, ht⟩
    have h := checkAndInsert_present c key expiresAt t (by rw [hs]; rfl)
    simp only [List.map_cons, callResults, h, List.length_cons, List.replicate_succ]
    rw [ih (sweep c t) hs (fun t2 h2 => hb t2 (List.mem_cons_of_mem _ h2))]

/-- C5, amended. `N ≥ 1` Replay Guard calls with the same key and `expiresAt`, made one
after the other (no two overlap) at clock readings not after `expiresAt`, on a cache
without the key: the first succeeds and the other `N - 1` are replays. -/
theorem C5_serialized_calls (c : Cache) (key : Bytes) (expiresAt : Int) (nows : List Int)
    (habsent : c key = none) (hN : nows.length ≥ 1) (hfuture : ∀ t ∈ nows, t ≤ expiresAt) :
    callResults c (nows.map (fun t => GuardCall.mk key expiresAt t)) =
      true :: List.replicate (nows.length - 1) false := by
  cases nows with
  | nil => simp at hN
  | cons t ts =>
    have hs0 : sweep c t key = none :=
      (sweep_eq_none c t key).2 (fun v hv => by rw [habsent] at hv; cases hv)
    have h0 := checkAndInsert_absent c key expiresAt t hs0
    simp only [List.map_cons, callResults, h0, List.length_cons, Nat.add_sub_cancel]
    rw [callResults_replays key expiresAt ts _ (by simp)
      (fun t2 h2 => hfuture t2 (List.mem_cons_of_mem _ h2))]

/-- C5 (amended) at a concrete input: three calls at clocks 5, 6 and 7 for a key valid
until 10. -/
theorem C5_serialized_calls_witness :
    callResults emptyCache
      ([5, 6, 7].map (fun t => GuardCall.mk (bytes "k") 10 t)) = [true, false, false] :=
  C5_serialized_calls emptyCache (bytes "k") 10 [5, 6, 7] rfl (by decide) (by decide)

/-! ## Sequences of requests -/

theorem run_append (cfg : Config) (xs ys : List Step) :
    ∀ st : State, run cfg st (xs ++ ys) = run cfg (run cfg st xs) ys := by
  induction xs with
  | nil => intro st; rfl
  | cons x xs ih => intro st; exact ih _

/-- An entry that has not expired at `now` survives a call of `handler` at `now`. -/
theorem handler_keeps (cfg : Config) (now : Int) (writeOk : Bool) (st : State) (r : Request)
    (k : Bytes) (v : Int) (hk : st.requestCache k = some v) (hv : now ≤ v) :
    (handler cfg now writeOk st r).state.requestCache k = some v := by
  rcases handler_cache cfg now writeOk st r with h | ⟨p, params, e, _, _, h⟩
  · rw [h]; exact hk
  · rw [h]; exact checkAndInsert_keeps st.requestCache p k e v now hk hv

theorem run_keeps (cfg : Config) (k : Bytes) (v bound : Int) (hv : bound ≤ v) :
    ∀ (steps : List Step) (st : State), st.requestCache k = some v →
      (∀ s ∈ steps, s.now ≤ bound) → (run cfg st steps).requestCache k = some v := by
  intro steps
  induction steps with
  | nil => intro st hk _; exact hk
  | cons s rest ih =>
    intro st hk hb
    have hs : s.now ≤ bound := hb s (List.mem_cons_self _ _)
    exact ih _ (handler_keeps cfg s.now s.writeOk st s.req k v hk (by omega))
      (fun s2 h2 => hb s2 (List.mem_cons_of_mem _ h2))

/-- The value stored for a payload is the integer of its `valid` field: `handlerValid` on
a stored payload depends on the clock alone. This is kept by every call of `handler`. -/
theorem handler_consistent (cfg : Config) (now : Int) (writeOk : Bool) (st : State)
    (r : Request)
    (hinv : ∀ k v, st.requestCache k = some v → ∀ t : Int, handlerValid t k =
      if v < t then
        Except.error (Rejection.mk ["invalid plaintext: valid parameter is in the past"]
          (Reply.response (httpError "404 page not found" StatusNotFound)))
      else Except.ok ((ParseQuery k).1, v)) :
    ∀ k v, (handler cfg now writeOk st r).state.requestCache k = some v →
      ∀ t : Int, handlerValid t k =
        if v < t then
          Except.error (Rejection.mk ["invalid plaintext: valid parameter is in the past"]
            (Reply.response (httpError "404 page not found" StatusNotFound)))
        else Except.ok ((ParseQuery k).1, v) := by
  intro k v hk t
  rcases handler_cache cfg now writeOk st r with h | ⟨p, params, e, _, hval, h⟩
  · rw [h] at hk; exact hinv k v hk t
  · rw [h] at hk
    rcases checkAndInsert_entry st.requestCache p k e now v hk with ⟨hold, _⟩ | ⟨rfl, rfl, _⟩
    · exact hinv k v hold t
    · obtain ⟨_, hparse, ⟨x, xs, hx, hint⟩, _⟩ := handlerValid_ok now k params v hval
      exact handlerValid_of_valid t k x xs v hparse hx hint

theorem run_consistent (cfg : Config) :
    ∀ (steps : List Step) (st : State),
      (∀ k v, st.requestCache k = some v → ∀ t : Int, handlerValid t k =
        if v < t then
          Except.error (Rejection.mk ["invalid plaintext: valid parameter is in the past"]
            (Reply.response (httpError "404 page not found" StatusNotFound)))
        else Except.ok ((ParseQuery k).1, v)) →
      ∀ k v, (run cfg st steps).requestCache k = some v → ∀ t : Int, handlerValid t k =
        if v < t then
          Except.error (Rejection.mk ["invalid plaintext: valid parameter is in the past"]
            (Reply.response (httpError "404 page not found" StatusNotFound)))
        else Except.ok ((ParseQuery k).1, v) := by
  intro steps
  induction steps with
  | nil => intro st h; exact h
  | cons s rest ih =>
    intro st h
    exact ih _ (handler_consistent cfg s.now s.writeOk st s.req h)

/-- A handler that wrote a frame has stored its payload. -/
theorem handler_stores_before_write (cfg : Config) (now : Int) (writeOk : Bool) (st : State)
    (r : Request) (p : Bytes) (hdec : handlerDecode cfg r = Except.ok p)
    (hw : (handler cfg now writeOk st r).state.serial ≠ st.serial) :
    ∃ e, (handler cfg now writeOk st r).state.requestCache p = some e := by
  cases hv : handlerValid now p with
  | error e =>
    rw [handler_of_valid_error cfg now writeOk st r p e hdec hv] at hw
    exact absurd rfl hw
  | ok pe =>
    obtain ⟨params, e⟩ := pe
    rw [handler_of_guard cfg now writeOk st r p params e hdec hv] at hw ⊢
    by_cases hf : (checkAndInsert st.requestCache p e now).2 = true
    · rw [if_pos hf, handlerRelay_cache]
      have hflag := checkAndInsert_flag st.requestCache p e now
      rw [hf] at hflag
      have hn : sweep st.requestCache now p = none := by
        cases hs : sweep st.requestCache now p with
        | none => rfl
        | some w => rw [hs] at hflag; cases hflag
      rw [checkAndInsert_absent _ _ _ _ hn]
      exact ⟨e, by simp⟩
    · rw [if_neg hf] at hw
      exact absurd rfl hw

/-- A request whose payload is in the cache is rejected and writes nothing: as a replay
while the stored `expiresAt` is not below the clock, as expired afterwards. -/
theorem handler_rejects_stored (cfg : Config) (now : Int) (writeOk : Bool) (st : State)
    (r : Request) (p : Bytes) (e : Int) (hdec : handlerDecode cfg r = Except.ok p)
    (hvalid : handlerValid now p =
      if e < now then
        Except.error (Rejection.mk ["invalid plaintext: valid parameter is in the past"]
          (Reply.response (httpError "404 page not found" StatusNotFound)))
      else Except.ok ((ParseQuery p).1, e))
    (hstored : now ≤ e → st.requestCache p = some e) :
    (handler cfg now writeOk st r).reply =
      Reply.response (httpError "404 page not found" StatusNotFound) ∧
    (handler cfg now writeOk st r).state.serial = st.serial ∧
    (now ≤ e → (handler cfg now writeOk st r).log = ["invalid plaintext: replay plaintext"]) ∧
    (e < now → (handler cfg now writeOk st r).log =
      ["invalid plaintext: valid parameter is in the past"]) := by
  by_cases hlt : e < now
  · rw [if_pos hlt] at hvalid
    rw [handler_of_valid_error cfg now writeOk st r p _ hdec hvalid]
    exact ⟨rfl, rfl, fun h => by omega, fun _ => rfl⟩
  · rw [if_neg hlt] at hvalid
    have hs := (sweep_eq_some st.requestCache now p e).2 ⟨hstored (by omega), by omega⟩
    have hflag := checkAndInsert_flag st.requestCache p e now
    rw [hs] at hflag
    rw [handler_of_guard cfg now writeOk st r p _ e hdec hvalid, hflag]
    exact ⟨rfl, rfl, fun _ => rfl, fun h => by omega⟩

/-- C1. One-time acceptance. Requests are handled one after the other, from the empty cache,
with clock readings that never decrease. Once the payload `p` of a request `s1` is in
`requestCache` (with value `e`), any later request `s2` with the same decoded payload
gets the 404 and writes no frame, whatever was handled in between and whatever the write
of `s1` did: it is rejected as a replay while `now ≤ e` and as expired once `now > e`.
Hence, if `s1` wrote a frame, `s2` writes none: a payload is relayed at most once. -/
theorem C1_one_time_acceptance (cfg : Config) (pre mid : List Step) (s1 s2 : Step) (p : Bytes)
    (hclock : List.Pairwise (fun a b : Int => a ≤ b) ((pre ++ s1 :: mid ++ [s2]).map Step.now))
    (hp1 : handlerDecode cfg s1.req = Except.ok p)
    (hp2 : handlerDecode cfg s2.req = Except.ok p) :
    (∀ e : Int, (run cfg initState (pre ++ [s1])).requestCache p = some e →
      (handler cfg s2.now s2.writeOk (run cfg initState (pre ++ s1 :: mid)) s2.req).reply =
        Reply.response (httpError "404 page not found" StatusNotFound) ∧
      (handler cfg s2.now s2.writeOk (run cfg initState (pre ++ s1 :: mid)) s2.req).state.serial =
        (run cfg initState (pre ++ s1 :: mid)).serial ∧
      (s2.now ≤ e →
        (handler cfg s2.now s2.writeOk (run cfg initState (pre ++ s1 :: mid)) s2.req).log =
          ["invalid plaintext: replay plaintext"]) ∧
      (e < s2.now →
        (handler cfg s2.now s2.writeOk (run cfg initState (pre ++ s1 :: mid)) s2.req).log =
          ["invalid plaintext: valid parameter is in the past"])) ∧
    ((run cfg initState (pre ++ [s1])).serial ≠ (run cfg initState pre).serial →
      (handler cfg s2.now s2.writeOk (run cfg initState (pre ++ s1 :: mid)) s2.req).state.serial =
        (run cfg initState (pre ++ s1 :: mid)).serial) := by
  have hmid : ∀ m ∈ mid, m.now ≤ s2.now := by
    intro m hm
    simp only [List.map_append, List.map_cons, List.map_nil, List.pairwise_append,
      List.pairwise_cons] at hclock
    exact hclock.2.2 m.now
      (List.mem_append_right _ (List.mem_cons_of_mem _ (List.mem_map_of_mem _ hm)))
      s2.now (List.mem_singleton_self _)
  have hsplit : pre ++ s1 :: mid = (pre ++ [s1]) ++ mid := by simp
  have hrun2 : run cfg initState (pre ++ s1 :: mid) =
      run cfg (run cfg initState (pre ++ [s1])) mid := by
    rw [hsplit, run_append]
  have hrun1 : run cfg initState (pre ++ [s1]) =
      (handler cfg s1.now s1.writeOk (run cfg initState pre) s1.req).state := by
    rw [run_append]; rfl
  have hinit : ∀ k v, initState.requestCache k = some v → ∀ t : Int, handlerValid t k =
      if v < t then
        Except.error (Rejection.mk ["invalid plaintext: valid parameter is in the past"]
          (Reply.response (httpError "404 page not found" StatusNotFound)))
      else Except.ok ((ParseQuery k).1, v) := by
    intro k v hk
    simp [initState, emptyCache] at hk
  have hmain : ∀ e : Int, (run cfg initState (pre ++ [s1])).requestCache p = some e →
      (handler cfg s2.now s2.writeOk (run cfg initState (pre ++ s1 :: mid)) s2.req).reply =
        Reply.response (httpError "404 page not found" StatusNotFound) ∧
      (handler cfg s2.now s2.writeOk (run cfg initState (pre ++ s1 :: mid)) s2.req).state.serial =
        (run cfg initState (pre ++ s1 :: mid)).serial ∧
      (s2.now ≤ e →
        (handler cfg s2.now s2.writeOk (run cfg initState (pre ++ s1 :: mid)) s2.req).log =
          ["invalid plaintext: replay plaintext"]) ∧
      (e < s2.now →
        (handler cfg s2.now s2.writeOk (run cfg initState (pre ++ s1 :: mid)) s2.req).log =
          ["invalid plaintext: valid parameter is in the past"]) := by
    intro e he
    have hval := run_consistent cfg (pre ++ [s1]) initState hinit p e he s2.now
    refine handler_rejects_stored cfg s2.now s2.writeOk _ s2.req p e hp2 hval ?_
    intro hle
    rw [hrun2]
    exact run_keeps cfg p e s2.now hle mid _ he hmid
  refine ⟨hmain, fun hw => ?_⟩
  rw [hrun1] at hw
  obtain ⟨e, he⟩ := handler_stores_before_write cfg s1.now s1.writeOk _ s1.req p hp1 hw
  rw [← hrun1] at he
  exact (hmain e he).2.1

/-- C1 at a concrete input: a command valid until 10 is relayed at clock 5, another one is
handled at clock 6, and the first one comes again at clock 7. -/
theorem C1_one_time_acceptance_witness :
    List.Pairwise (fun a b : Int => a ≤ b)
      (([] ++ Step.mk 5 true (getRequest "valid%3D10%26sendNumber%3D555%26sendMsg%3Dhello") ::
        [Step.mk 6 true (getRequest "valid%3D20%26sendNumber%3D555%26sendMsg%3Dother")] ++
        [Step.mk 7 true (getRequest "valid%3D10%26sendNumber%3D555%26sendMsg%3Dhello")]).map
        Step.now) ∧
    (run sampleConfig initState
      ([] ++ [Step.mk 5 true (getRequest "valid%3D10%26sendNumber%3D555%26sendMsg%3Dhello")])
      ).requestCache (bytes "valid=10&sendNumber=555&sendMsg=hello") = some 10 ∧
    (handler sampleConfig 7 true
      (run sampleConfig initState
        ([] ++ Step.mk 5 true (getRequest "valid%3D10%26sendNumber%3D555%26sendMsg%3Dhello") ::
          [Step.mk 6 true (getRequest "valid%3D20%26sendNumber%3D555%26sendMsg%3Dother")]))
      (getRequest "valid%3D10%26sendNumber%3D555%26sendMsg%3Dhello")).log =
        ["invalid plaintext: replay plaintext"] :=
  ⟨by decide, by decide,
    ((C1_one_time_acceptance sampleConfig []
      [Step.mk 6 true (getRequest "valid%3D20%26sendNumber%3D555%26sendMsg%3Dother")]
      (Step.mk 5 true (getRequest "valid%3D10%26sendNumber%3D555%26sendMsg%3Dhello"))
      (Step.mk 7 true (getRequest "valid%3D10%26sendNumber%3D555%26sendMsg%3Dhello"))
      (bytes "valid=10&sendNumber=555&sendMsg=hello") (by decide) rfl rfl).1 10
        (by decide)).2.2.1 (by decide)⟩

/-! ## The relay frame and the decoder -/

/-- The frame, written out byte by byte. -/
theorem encodeMessage_bytes (d m : Bytes) :
    encodeMessage d m = 58 :: 58 :: (d ++ 58 :: 58 :: (m ++ [58, 58, 10])) := by
  have hf : bytes "::%s::%s::\n" = [58, 58, 37, 115, 58, 58, 37, 115, 58, 58, 10] := by decide
  have hp : byte '%' = 37 := by decide
  have hs : byte 's' = 115 := by decide
  simp +decide [encodeMessage, hf, hp, hs, Sprintf]

/-- A colon-free text followed by a colon can be cut off in one way only. -/
theorem colon_free_split (d1 : Bytes) :
    ∀ (d2 r1 r2 : Bytes), (58 : UInt8) ∉ d1 → (58 : UInt8) ∉ d2 →
      d1 ++ 58 :: r1 = d2 ++ 58 :: r2 → d1 = d2 ∧ r1 = r2 := by
  induction d1 with
  | nil =>
    intro d2 r1 r2 _ h2 h
    cases d2 with
    | nil =>
      simp only [List.nil_append, List.cons.injEq, true_and] at h
      exact ⟨rfl, h⟩
    | cons c cs =>
      simp only [List.nil_append, List.cons_append, List.cons.injEq] at h
      exact absurd (h.1 ▸ List.mem_cons_self _ _) h2
  | cons a as ih =>
    intro d2 r1 r2 h1 h2 h
    cases d2 with
    | nil =>
      simp only [List.nil_append, List.cons_append, List.cons.injEq] at h
      exact absurd (h.1 ▸ List.mem_cons_self _ _) h1
    | cons c cs =>
      simp only [List.cons_append, List.cons.injEq] at h
      obtain ⟨hd, hr⟩ := ih cs r1 r2 (fun hm => h1 (List.mem_cons_of_mem _ hm))
        (fun hm => h2 (List.mem_cons_of_mem _ hm)) h.2
      exact ⟨by rw [h.1, hd], hr⟩

/-- C17. Frame unambiguity: for destinations without a `:` byte, equal frames have equal
destinations and equal messages. -/
theorem C17_frame_unambiguous (d1 d2 m1 m2 : Bytes)
    (h1 : byte ':' ∉ d1) (h2 : byte ':' ∉ d2)
    (h : encodeMessage d1 m1 = encodeMessage d2 m2) : d1 = d2 ∧ m1 = m2 := by
  have hc : byte ':' = 58 := by decide
  rw [hc] at h1 h2
  rw [encodeMessage_bytes, encodeMessage_bytes] at h
  simp only [List.cons.injEq, true_and] at h
  obtain ⟨hd, hr⟩ := colon_free_split d1 d2 _ _ h1 h2 h
  simp only [List.cons.injEq, true_and] at hr
  exact ⟨hd, List.append_cancel_right hr⟩

/-- C17 at a concrete input: the frame of `555` and `hello`. -/
theorem C17_frame_unambiguous_witness :
    byte ':' ∉ bytes "555" ∧ (bytes "555" = bytes "555" ∧ bytes "hello" = bytes "hello") :=
  ⟨by decide,
    C17_frame_unambiguous (bytes "555") (bytes "555") (bytes "hello") (bytes "hello")
      (by decide) (by decide) rfl⟩

/-- C14. Decoder reference definition, with AES-CFB and base64 as library functions:
`decrypt` is the reference Decoder; it fails on a key whose length is not 16, 24 or 32, on
a text shorter than 16 bytes, and when the decrypted body is not base64; otherwise it
returns the base64 decoding of the CFB decryption of `text[16:]` under `key` and the
initialization vector `text[0:16]`. -/
theorem C14_decrypt_reference (lib : Crypto) (key text : Bytes) :
    decrypt lib key text = decoderReference lib key text ∧
    (¬ (key.length = 16 ∨ key.length = 24 ∨ key.length = 32) → decrypt lib key text = none) ∧
    (text.length < 16 → decrypt lib key text = none) ∧
    ((key.length = 16 ∨ key.length = 24 ∨ key.length = 32) → 16 ≤ text.length →
      decrypt lib key text =
        lib.base64Decode (lib.cfbDecrypt key (text.take 16) (text.drop 16))) := by
  have hcases : (¬ (key.length = 16 ∨ key.length = 24 ∨ key.length = 32) →
        decrypt lib key text = none) ∧
      (text.length < 16 → decrypt lib key text = none) ∧
      ((key.length = 16 ∨ key.length = 24 ∨ key.length = 32) → 16 ≤ text.length →
        decrypt lib key text =
          lib.base64Decode (lib.cfbDecrypt key (text.take 16) (text.drop 16))) := by
    refine ⟨fun hk => ?_, fun ht => ?_, fun hk ht => ?_⟩
    · unfold decrypt
      rw [if_neg hk]
    · unfold decrypt
      by_cases hk : key.length = 16 ∨ key.length = 24 ∨ key.length = 32
      · rw [if_pos hk, if_pos (by simpa [BlockSize] using ht)]
      · rw [if_neg hk]
    · unfold decrypt
      rw [if_pos hk, if_neg (by simp only [BlockSize]; omega)]
      rfl
  refine ⟨?_, hcases⟩
  unfold decoderReference
  by_cases hk : key.length = 16 ∨ key.length = 24 ∨ key.length = 32
  · have hmem : ¬ key.length ∉ [16, 24, 32] := by
      simp only [List.mem_cons, List.mem_singleton, List.not_mem_nil, or_false, not_not]
      exact hk
    rw [if_neg hmem]
    by_cases ht : text.length < 16
    · rw [if_pos ht, hcases.2.1 ht]
    · rw [if_neg ht, hcases.2.2 hk (by omega)]
      cases lib.base64Decode (lib.cfbDecrypt key (text.take 16) (text.drop 16)) <;> rfl
  · have hmem : key.length ∉ [16, 24, 32] := by
      simp only [List.mem_cons, List.mem_singleton, List.not_mem_nil, or_false]
      exact hk
    rw [if_pos hmem, hcases.1 hk]

/-- C14 at concrete inputs, with a library that leaves the bytes as they are: a 5-byte key
fails, a 3-byte text fails, and a 16-byte key with a 17-byte text yields the last byte. -/
theorem C14_decrypt_reference_witness :
    decrypt plainCrypto (bytes "short") (bytes "0123456789abcdefX") = none ∧
    decrypt plainCrypto (bytes "0123456789abcdef") (bytes "abc") = none ∧
    decrypt plainCrypto (bytes "0123456789abcdef") (bytes "0123456789abcdefX") =
      some (bytes "X") :=
  ⟨(C14_decrypt_reference plainCrypto (bytes "short") (bytes "0123456789abcdefX")).2.1
      (by decide),
    (C14_decrypt_reference plainCrypto (bytes "0123456789abcdef") (bytes "abc")).2.2.1
      (by decide),
    ((C14_decrypt_reference plainCrypto (bytes "0123456789abcdef")
      (bytes "0123456789abcdefX")).2.2.2 (by decide) (by decide)).trans (by decide)⟩

/-! ## Stage ordering and the relay outcome -/

/-- C12. Stage ordering frame. A request rejected before the Replay Guard, by the first
stage (method, `data` parameter, decryption) or by the second (parsing, `valid` missing or
not an integer, `valid < now`), leaves the state, cache and serial port, exactly as it
was. A request rejected as a replay leaves the swept cache and writes nothing. -/
theorem C12_stage_ordering_frame (cfg : Config) (now : Int) (writeOk : Bool) (st : State)
    (r : Request) :
    (∀ e, handlerDecode cfg r = Except.error e →
      handler cfg now writeOk st r = Result.mk st e.log
        (Reply.response (httpError "404 page not found" StatusNotFound))) ∧
    (∀ p e, handlerDecode cfg r = Except.ok p → handlerValid now p = Except.error e →
      handler cfg now writeOk st r = Result.mk st e.log
        (Reply.response (httpError "404 page not found" StatusNotFound))) ∧
    (∀ p params v, handlerDecode cfg r = Except.ok p →
      handlerValid now p = Except.ok (params, v) →
      (checkAndInsert st.requestCache p v now).2 = false →
      handler cfg now writeOk st r =
        Result.mk (State.mk (sweep st.requestCache now) st.serial)
          ["invalid plaintext: replay plaintext"]
          (Reply.response (httpError "404 page not found" StatusNotFound))) ∧
    ((handler cfg now writeOk st r).log = ["invalid plaintext: replay plaintext"] →
      (handler cfg now writeOk st r).state.serial = st.serial) := by
  refine ⟨fun e he => ?_, fun p e hp he => ?_, fun p params v hp hv hf => ?_, fun hlog => ?_⟩
  · rw [handler_of_decode_error cfg now writeOk st r e he, handlerDecode_error cfg r e he]
  · rw [handler_of_valid_error cfg now writeOk st r p e hp he, handlerValid_error now p e he]
  · have hflag := checkAndInsert_flag st.requestCache p v now
    rw [hf] at hflag
    have hpres : (sweep st.requestCache now p).isSome = true := by
      cases hs : (sweep st.requestCache now p).isSome with
      | true => rfl
      | false => rw [hs] at hflag; cases hflag
    rw [handler_of_guard cfg now writeOk st r p params v hp hv,
      checkAndInsert_present st.requestCache p v now hpres]
    rfl
  · cases hd : handlerDecode cfg r with
    | error e => rw [handler_of_decode_error cfg now writeOk st r e hd]
    | ok p =>
      cases hv : handlerValid now p with
      | error e => rw [handler_of_valid_error cfg now writeOk st r p e hd hv]
      | ok pe =>
        obtain ⟨params, v⟩ := pe
        rw [handler_of_guard cfg now writeOk st r p params v hd hv] at hlog ⊢
        by_cases hf : (checkAndInsert st.requestCache p v now).2 = true
        · rw [if_pos hf] at hlog ⊢
          rcases handlerRelay_cases cfg writeOk
            (State.mk (checkAndInsert st.requestCache p v now).1 st.serial) params with
            ⟨_, h⟩ | ⟨_, h⟩ | ⟨n, ns, _, _, h⟩ | ⟨n, ns, _, _, h⟩ | ⟨n, ns, m, ms, _, _, h⟩
          · rw [h]
          · rw [h]
          · rw [h]
          · rw [h]
          · rw [h] at hlog
            cases hport : cfg.serialPort <;> cases hw : writeOk <;>
              simp [hport, hw] at hlog
        · rw [if_neg hf]

/-- C12 at concrete inputs: a `POST` is turned away with the state untouched. -/
theorem C12_stage_ordering_frame_witness :
    handlerDecode sampleConfig (Request.mk (bytes "POST") (bytes "data=valid%3D10")) =
      Except.error (Rejection.mk []
        (Reply.response (httpError "404 page not found" StatusNotFound))) ∧
    handler sampleConfig 5 true initState (Request.mk (bytes "POST") (bytes "data=valid%3D10")) =
      Result.mk initState []
        (Reply.response (httpError "404 page not found" StatusNotFound)) :=
  ⟨rfl,
    (C12_stage_ordering_frame sampleConfig 5 true initState
      (Request.mk (bytes "POST") (bytes "data=valid%3D10"))).1 _ rfl⟩

/-- C13. Relay outcome. For a request that passes decoding, parsing, the Freshness Gate and
the Replay Guard and carries `sendNumber` and `sendMsg`: with no serial port nothing is
written and the answer is the 200; with a serial port exactly one frame,
`encodeMessage sendNumber sendMsg`, is written, and the answer is the 200 if and only if
the write succeeds, the 404 otherwise. -/
theorem C13_relay_outcome (cfg : Config) (now : Int) (writeOk : Bool) (st : State)
    (r : Request) (p : Bytes) (params : Values) (v : Int) (n m : Bytes) (ns ms : List Bytes)
    (hdec : handlerDecode cfg r = Except.ok p)
    (hvalid : handlerValid now p = Except.ok (params, v))
    (hguard : (checkAndInsert st.requestCache p v now).2 = true)
    (hn : params (bytes "sendNumber") = some (n :: ns))
    (hm : params (bytes "sendMsg") = some (m :: ms)) :
    (cfg.serialPort = false →
      (handler cfg now writeOk st r).state.serial = st.serial ∧
      (handler cfg now writeOk st r).reply = Reply.response (writeHeader 200)) ∧
    (cfg.serialPort = true →
      (handler cfg now writeOk st r).state.serial = st.serial ++ [encodeMessage n m] ∧
      ((handler cfg now writeOk st r).reply = Reply.response (writeHeader 200) ↔
        writeOk = true) ∧
      (writeOk = false → (handler cfg now writeOk st r).reply =
        Reply.response (httpError "404 page not found" StatusNotFound))) := by
  have hne : Reply.response (httpError "404 page not found" StatusNotFound) ≠
      Reply.response (writeHeader 200) := by decide
  rw [handler_of_guard cfg now writeOk st r p params v hdec hvalid, if_pos hguard]
  simp only [handlerRelay, hn, hm, checkSendNumber, checkSendMsg]
  constructor
  · intro hport
    simp [hport]
  · intro hport
    cases writeOk with
    | true => simp [hport]
    | false =>
      simp [hport, hne]

/-- C13 at a concrete input: a fresh command on the empty cache, the write failing. -/
theorem C13_relay_outcome_witness :
    (handler sampleConfig 5 false initState
      (getRequest "valid%3D10%26sendNumber%3D555%26sendMsg%3Dhello")).state.serial =
        [] ++ [encodeMessage (bytes "555") (bytes "hello")] ∧
    (handler sampleConfig 5 false initState
      (getRequest "valid%3D10%26sendNumber%3D555%26sendMsg%3Dhello")).reply =
        Reply.response (httpError "404 page not found" StatusNotFound) :=
  ⟨((C13_relay_outcome sampleConfig 5 false initState
      (getRequest "valid%3D10%26sendNumber%3D555%26sendMsg%3Dhello")
      (bytes "valid=10&sendNumber=555&sendMsg=hello")
      (ParseQuery (bytes "valid=10&sendNumber=555&sendMsg=hello")).1 10
      (bytes "555") (bytes "hello") [] [] rfl rfl (by decide) (by decide) (by decide)).2 rfl).1,
    ((C13_relay_outcome sampleConfig 5 false initState
      (getRequest "valid%3D10%26sendNumber%3D555%26sendMsg%3Dhello")
      (bytes "valid=10&sendNumber=555&sendMsg=hello")
      (ParseQuery (bytes "valid=10&sendNumber=555&sendMsg=hello")).1 10
      (bytes "555") (bytes "hello") [] [] rfl rfl (by decide) (by decide) (by decide)).2
        rfl).2.2 rfl⟩

/-! ## The cache invariant, and two scenarios -/

/-- C15. Key/value consistency of `requestCache`. In every state reached from the empty
cache by handling requests one after the other, a key of the cache is a payload that
parses and whose first `valid` value is an integer, and the value stored is that integer.
A key that enters the cache at a request is the decoded payload of that request, and its
value is not below the clock reading of that request. -/
theorem C15_cache_key_value (cfg : Config) (steps : List Step) (k : Bytes) (v : Int) :
    ((run cfg initState steps).requestCache k = some v →
      (ParseQuery k).2 = none ∧
      ∃ x xs, (ParseQuery k).1 (bytes "valid") = some (x :: xs) ∧ Atoi x = some v) ∧
    (∀ s : Step, (run cfg initState steps).requestCache k = none →
      (handler cfg s.now s.writeOk (run cfg initState steps) s.req).state.requestCache k
        = some v →
      handlerDecode cfg s.req = Except.ok k ∧ v ≥ s.now) := by
  constructor
  · intro hk
    have hinit : ∀ k v, initState.requestCache k = some v → ∀ t : Int, handlerValid t k =
        if v < t then
          Except.error (Rejection.mk ["invalid plaintext: valid parameter is in the past"]
            (Reply.response (httpError "404 page not found" StatusNotFound)))
        else Except.ok ((ParseQuery k).1, v) := by
      intro k v hk
      simp [initState, emptyCache] at hk
    have hval := run_consistent cfg steps initState hinit k v hk v
    rw [if_neg (by omega)] at hval
    obtain ⟨_, hparse, hx, _⟩ := handlerValid_ok v k _ v hval
    exact ⟨hparse, hx⟩
  · intro s hnone hsome
    rcases handler_cache cfg s.now s.writeOk (run cfg initState steps) s.req with
      h | ⟨p, params, e, hdec, hval, h⟩
    · rw [h, hnone] at hsome; cases hsome
    · rw [h] at hsome
      rcases checkAndInsert_entry _ p k e s.now v hsome with ⟨hold, _⟩ | ⟨hkp, hve, _⟩
      · rw [hnone] at hold; cases hold
      · subst hkp
        subst hve
        have := (handlerValid_ok s.now k params v hval).2.2.2
        exact ⟨hdec, by omega⟩

/-- C15 at a concrete input: after one command valid until 10, handled at clock 5. -/
theorem C15_cache_key_value_witness :
    (run sampleConfig initState
      [Step.mk 5 true (getRequest "valid%3D10%26sendNumber%3D555%26sendMsg%3Dhello")]
      ).requestCache (bytes "valid=10&sendNumber=555&sendMsg=hello") = some 10 ∧
    (ParseQuery (bytes "valid=10&sendNumber=555&sendMsg=hello")).2 = none ∧
    ∃ x xs, (ParseQuery (bytes "valid=10&sendNumber=555&sendMsg=hello")).1 (bytes "valid")
      = some (x :: xs) ∧ Atoi x = some 10 :=
  ⟨by decide,
    (C15_cache_key_value sampleConfig
      [Step.mk 5 true (getRequest "valid%3D10%26sendNumber%3D555%26sendMsg%3Dhello")]
      (bytes "valid=10&sendNumber=555&sendMsg=hello") 10).1 (by decide)⟩

/-- C16. Replay detection is by the exact bytes of the payload: two payloads that differ
only in the order of their pairs carry the same `valid`, `sendNumber` and `sendMsg`, and
handled one after the other from the empty cache, at clock 5, both are accepted and the
same frame is written twice. -/
theorem C16_replay_by_exact_bytes :
    bytes "valid=10&sendNumber=555&sendMsg=hello" ≠
      bytes "sendNumber=555&valid=10&sendMsg=hello" ∧
    handlerDecode sampleConfig (getRequest "valid%3D10%26sendNumber%3D555%26sendMsg%3Dhello")
      = Except.ok (bytes "valid=10&sendNumber=555&sendMsg=hello") ∧
    handlerDecode sampleConfig (getRequest "sendNumber%3D555%26valid%3D10%26sendMsg%3Dhello")
      = Except.ok (bytes "sendNumber=555&valid=10&sendMsg=hello") ∧
    (ParseQuery (bytes "valid=10&sendNumber=555&sendMsg=hello")).1 (bytes "valid") =
      (ParseQuery (bytes "sendNumber=555&valid=10&sendMsg=hello")).1 (bytes "valid") ∧
    (ParseQuery (bytes "valid=10&sendNumber=555&sendMsg=hello")).1 (bytes "sendNumber") =
      (ParseQuery (bytes "sendNumber=555&valid=10&sendMsg=hello")).1 (bytes "sendNumber") ∧
    (ParseQuery (bytes "valid=10&sendNumber=555&sendMsg=hello")).1 (bytes "sendMsg") =
      (ParseQuery (bytes "sendNumber=555&valid=10&sendMsg=hello")).1 (bytes "sendMsg") ∧
    (handler sampleConfig 5 true initState
      (getRequest "valid%3D10%26sendNumber%3D555%26sendMsg%3Dhello")).reply =
        Reply.response (writeHeader 200) ∧
    (handler sampleConfig 5 true
      (handler sampleConfig 5 true initState
        (getRequest "valid%3D10%26sendNumber%3D555%26sendMsg%3Dhello")).state
      (getRequest "sendNumber%3D555%26valid%3D10%26sendMsg%3Dhello")).reply =
        Reply.response (writeHeader 200) ∧
    (handler sampleConfig 5 true
      (handler sampleConfig 5 true initState
        (getRequest "valid%3D10%26sendNumber%3D555%26sendMsg%3Dhello")).state
      (getRequest "sendNumber%3D555%26valid%3D10%26sendMsg%3Dhello")).state.serial =
        [bytes "::555::hello::\n", bytes "::555::hello::\n"] :=
  ⟨by decide, rfl, rfl, by decide, by decide, by decide, by decide, by decide, by decide⟩

/-- C11, as stated, fails in two ways that depend on the serial port, which the claim does
not fix. With a port whose write fails the request is not accepted: it gets the 404. With
no port (the default of `main`) the request is accepted, but no frame is written. -/
theorem C11_end_to_end_counterexample :
    (handler sampleConfig 5 false initState
      (getRequest "valid%3D9999999999%26sendNumber%3D555%26sendMsg%3Dhello")).reply =
        Reply.response (httpError "404 page not found" StatusNotFound) ∧
    (handler sampleConfig 5 false initState
      (getRequest "valid%3D9999999999%26sendNumber%3D555%26sendMsg%3Dhello")).log =
        ["error sending data to serial port: %s"] ∧
    (handler (Config.mk [] false plainCrypto) 5 true initState
      (getRequest "valid%3D9999999999%26sendNumber%3D555%26sendMsg%3Dhello")).reply =
        Reply.response (writeHeader 200) ∧
    (handler (Config.mk [] false plainCrypto) 5 true initState
      (getRequest "valid%3D9999999999%26sendNumber%3D555%26sendMsg%3Dhello")).state.serial =
        [] := by
  decide

/-- C11, amended. With no key, the empty cache and a clock not after 9999999999, whatever
the serial port is and does: the `GET` request with
`data = "valid=9999999999&sendNumber=555&sendMsg=hello"` is answered with the 200 unless
there is a port and its write fails (then with the 404); with a port the frame
`"::555::hello::\n"` is passed to it exactly once, without a port nothing is written. The
same request handled next (clock still not after 9999999999) is answered with the 404, as
a replay, and writes nothing more. -/
theorem C11_end_to_end (cfg : Config) (now1 now2 : Int) (writeOk1 writeOk2 : Bool)
    (hkey : cfg.key = []) (h1 : now1 ≤ 9999999999) (h2 : now2 ≤ 9999999999) :
    ((handler cfg now1 writeOk1 initState
      (getRequest "valid%3D9999999999%26sendNumber%3D555%26sendMsg%3Dhello")).reply =
        Reply.response (writeHeader 200) ↔ (cfg.serialPort = true → writeOk1 = true)) ∧
    (cfg.serialPort = true → writeOk1 = false →
      (handler cfg now1 writeOk1 initState
        (getRequest "valid%3D9999999999%26sendNumber%3D555%26sendMsg%3Dhello")).reply =
          Reply.response (httpError "404 page not found" StatusNotFound)) ∧
    (cfg.serialPort = true →
      (handler cfg now1 writeOk1 initState
        (getRequest "valid%3D9999999999%26sendNumber%3D555%26sendMsg%3Dhello")).state.serial =
          [bytes "::555::hello::\n"]) ∧
    (cfg.serialPort = false →
      (handler cfg now1 writeOk1 initState
        (getRequest "valid%3D9999999999%26sendNumber%3D555%26sendMsg%3Dhello")).state.serial =
          []) ∧
    (handler cfg now2 writeOk2
      (handler cfg now1 writeOk1 initState
        (getRequest "valid%3D9999999999%26sendNumber%3D555%26sendMsg%3Dhello")).state
      (getRequest "valid%3D9999999999%26sendNumber%3D555%26sendMsg%3Dhello")).reply =
        Reply.response (httpError "404 page not found" StatusNotFound) ∧
    (handler cfg now2 writeOk2
      (handler cfg now1 writeOk1 initState
        (getRequest "valid%3D9999999999%26sendNumber%3D555%26sendMsg%3Dhello")).state
      (getRequest "valid%3D9999999999%26sendNumber%3D555%26sendMsg%3Dhello")).log =
        ["invalid plaintext: replay plaintext"] ∧
    (handler cfg now2 writeOk2
      (handler cfg now1 writeOk1 initState
        (getRequest "valid%3D9999999999%26sendNumber%3D555%26sendMsg%3Dhello")).state
      (getRequest "valid%3D9999999999%26sendNumber%3D555%26sendMsg%3Dhello")).state.serial =
        (handler cfg now1 writeOk1 initState
          (getRequest "valid%3D9999999999%26sendNumber%3D555%26sendMsg%3Dhello")).state.serial
    := by
  have hq : (ParseQuery
      (getRequest "valid%3D9999999999%26sendNumber%3D555%26sendMsg%3Dhello").rawQuery).1
      (bytes "data") = some [bytes "valid=9999999999&sendNumber=555&sendMsg=hello"] := by
    decide
  have hmethod : (getRequest "valid%3D9999999999%26sendNumber%3D555%26sendMsg%3Dhello").method
      = bytes "GET" := rfl
  have hlen : ¬ (bytes "valid=9999999999&sendNumber=555&sendMsg=hello").length < 1 := by
    decide
  have hdec : handlerDecode cfg
      (getRequest "valid%3D9999999999%26sendNumber%3D555%26sendMsg%3Dhello") =
      Except.ok (bytes "valid=9999999999&sendNumber=555&sendMsg=hello") := by
    unfold handlerDecode
    rw [if_neg (by rw [hmethod]; exact fun h => h rfl), hq]
    simp only [hlen, if_false, hkey, List.length_nil, gt_iff_lt, lt_self_iff_false]
  have hval : ∀ now : Int, now ≤ 9999999999 →
      handlerValid now (bytes "valid=9999999999&sendNumber=555&sendMsg=hello") =
        Except.ok ((ParseQuery (bytes "valid=9999999999&sendNumber=555&sendMsg=hello")).1,
          9999999999) := by
    intro now hnow
    rw [handlerValid_of_valid now (bytes "valid=9999999999&sendNumber=555&sendMsg=hello")
      (bytes "9999999999") [] 9999999999 (by decide) (by decide) (by decide),
      if_neg (by omega)]
  have hn : (ParseQuery (bytes "valid=9999999999&sendNumber=555&sendMsg=hello")).1
      (bytes "sendNumber") = some [bytes "555"] := by decide
  have hm : (ParseQuery (bytes "valid=9999999999&sendNumber=555&sendMsg=hello")).1
      (bytes "sendMsg") = some [bytes "hello"] := by decide
  have hframe : encodeMessage (bytes "555") (bytes "hello") = bytes "::555::hello::\n" := by
    decide
  have hne : Reply.response (httpError "404 page not found" StatusNotFound) ≠
      Reply.response (writeHeader 200) := by decide
  have hs0 : sweep initState.requestCache now1
      (bytes "valid=9999999999&sendNumber=555&sendMsg=hello") = none :=
    (sweep_eq_none _ now1 _).2 (fun v hv => by simp [initState, emptyCache] at hv)
  have hres1 : handler cfg now1 writeOk1 initState
      (getRequest "valid%3D9999999999%26sendNumber%3D555%26sendMsg%3Dhello") =
      if cfg.serialPort then
        if writeOk1 then
          Result.mk
            (State.mk
              (Function.update (sweep initState.requestCache now1)
                (bytes "valid=9999999999&sendNumber=555&sendMsg=hello") (some 9999999999))
              [bytes "::555::hello::\n"])
            ["Sent message to arduino sms: %s"] (Reply.response (writeHeader 200))
        else
          Result.mk
            (State.mk
              (Function.update (sweep initState.requestCache now1)
                (bytes "valid=9999999999&sendNumber=555&sendMsg=hello") (some 9999999999))
              [bytes "::555::hello::\n"])
            ["error sending data to serial port: %s"]
            (Reply.response (httpError "404 page not found" StatusNotFound))
      else
        Result.mk
          (State.mk
            (Function.update (sweep initState.requestCache now1)
              (bytes "valid=9999999999&sendNumber=555&sendMsg=hello") (some 9999999999))
            [])
          [] (Reply.response (writeHeader 200)) := by
    rw [handler_of_guard cfg now1 writeOk1 initState _ _ _ 9999999999 hdec (hval now1 h1),
      checkAndInsert_absent _ _ _ _ hs0]
    simp only [if_true, handlerRelay, hn, hm, checkSendNumber, checkSendMsg, hframe,
      initState, List.nil_append]
  have hsecond : ∀ serial : List Bytes,
      (handler cfg now2 writeOk2
        (State.mk
          (Function.update (sweep initState.requestCache now1)
            (bytes "valid=9999999999&sendNumber=555&sendMsg=hello") (some 9999999999))
          serial)
        (getRequest "valid%3D9999999999%26sendNumber%3D555%26sendMsg%3Dhello")).reply =
          Reply.response (httpError "404 page not found" StatusNotFound) ∧
      (handler cfg now2 writeOk2
        (State.mk
          (Function.update (sweep initState.requestCache now1)
            (bytes "valid=9999999999&sendNumber=555&sendMsg=hello") (some 9999999999))
          serial)
        (getRequest "valid%3D9999999999%26sendNumber%3D555%26sendMsg%3Dhello")).log =
          ["invalid plaintext: replay plaintext"] ∧
      (handler cfg now2 writeOk2
        (State.mk
          (Function.update (sweep initState.requestCache now1)
            (bytes "valid=9999999999&sendNumber=555&sendMsg=hello") (some 9999999999))
          serial)
        (getRequest "valid%3D9999999999%26sendNumber%3D555%26sendMsg%3Dhello")).state.serial =
          serial := by
    intro serial
    have hrej := handler_rejects_stored cfg now2 writeOk2
      (State.mk
        (Function.update (sweep initState.requestCache now1)
          (bytes "valid=9999999999&sendNumber=555&sendMsg=hello") (some 9999999999))
        serial)
      (getRequest "valid%3D9999999999%26sendNumber%3D555%26sendMsg%3Dhello")
      (bytes "valid=9999999999&sendNumber=555&sendMsg=hello") 9999999999 hdec
      (by rw [hval now2 h2, if_neg (by omega)]) (fun _ => by simp)
    exact ⟨hrej.1, hrej.2.2.1 h2, hrej.2.1⟩
  have hft : ¬ (false = true) := Bool.false_ne_true
  have htf : ¬ (true = false) := fun h => Bool.false_ne_true h.symm
  cases hport : cfg.serialPort with
  | false =>
    rw [hport, if_neg Bool.false_ne_true] at hres1
    rw [hres1]
    exact ⟨⟨fun _ h => absurd h hft, fun _ => rfl⟩, fun h => absurd h hft,
      fun h => absurd h hft, fun _ => rfl, hsecond []⟩
  | true =>
    rw [hport, if_pos rfl] at hres1
    cases hw : writeOk1 with
    | true =>
      rw [hw, if_pos rfl] at hres1
      rw [hres1]
      exact ⟨⟨fun _ _ => rfl, fun _ => rfl⟩, fun _ h => absurd h htf, fun _ => rfl,
        fun h => absurd h htf, hsecond _⟩
    | false =>
      rw [hw, if_neg Bool.false_ne_true] at hres1
      rw [hres1]
      exact ⟨⟨fun h => absurd h hne, fun h => absurd (h rfl) hft⟩,
        fun _ _ => rfl, fun _ => rfl, fun h => absurd h htf, hsecond _⟩

/-- C11 (amended) at concrete inputs: without a key, with a port whose write succeeds, both
requests handled at clock 1700000000. -/
theorem C11_end_to_end_witness :
    (1700000000 : Int) ≤ 9999999999 ∧
    (handler sampleConfig 1700000000 true initState
      (getRequest "valid%3D9999999999%26sendNumber%3D555%26sendMsg%3Dhello")).state.serial =
        [bytes "::555::hello::\n"] ∧
    (handler sampleConfig 1700000000 true
      (handler sampleConfig 1700000000 true initState
        (getRequest "valid%3D9999999999%26sendNumber%3D555%26sendMsg%3Dhello")).state
      (getRequest "valid%3D9999999999%26sendNumber%3D555%26sendMsg%3Dhello")).log =
        ["invalid plaintext: replay plaintext"] :=
  ⟨by decide,
    (C11_end_to_end sampleConfig 1700000000 1700000000 true true rfl (by decide)
      (by decide)).2.2.1 rfl,
    (C11_end_to_end sampleConfig 1700000000 1700000000 true true rfl (by decide)
      (by decide)).2.2.2.2.2.1⟩

end SmsServer
